import Mathlib

/-!
Shallow embedding of the date drill-down core of `django_easyfilters/filters.py`:
the `DateRangeType` registry, the `DateChoice` value type, and the
`DateTimeFilter` bucketing/bridging/removal logic, with the external store's
responses passed in as explicit inputs.

Conventions: Python exceptions escaping a modelled operation are `none`;
machine-level faithfulness notes appear on each definition.
-/

set_option maxRecDepth 10000

/-- ASCII digit test, matching what the regex class `\d` accepts on the
one-byte characters that occur in these parameters. -/
def isDigitChar (c : Char) : Bool := decide ('0' ≤ c) && decide (c ≤ '9')

/-- Proleptic Gregorian leap-year rule used by Python's `datetime.date`. -/
def isLeap (y : Nat) : Bool := y % 4 == 0 && (y % 100 != 0 || y % 400 == 0)

/-- `calendar.monthrange(y, m)[1]` for `1 ≤ m ≤ 12` (out-of-range months are
policed by `mkDate`, mirroring where Python raises). -/
def daysInMonth (y m : Nat) : Nat :=
  if m == 2 then (if isLeap y then 29 else 28)
  else if m == 4 || m == 6 || m == 9 || m == 11 then 30
  else 31

/-- Python `datetime.date` values: a (year, month, day) triple. -/
structure PyDate where
  year : Nat
  month : Nat
  day : Nat
deriving DecidableEq, Repr

/-- The validity `datetime.date(...)` enforces: `1 ≤ year ≤ 9999` (MINYEAR /
MAXYEAR), `1 ≤ month ≤ 12`, `1 ≤ day ≤` length of the month. -/
def PyDate.isValid (d : PyDate) : Bool :=
  1 ≤ d.year && d.year ≤ 9999 && 1 ≤ d.month && d.month ≤ 12 &&
    1 ≤ d.day && d.day ≤ daysInMonth d.year d.month

/-- `datetime.date(y, m, d)`; `none` models the `ValueError` on invalid parts. -/
def mkDate (y m d : Nat) : Option PyDate :=
  if (PyDate.mk y m d).isValid then some ⟨y, m, d⟩ else none

/-- Chronological comparison of dates (lexicographic on (year, month, day)),
as Python's `date.__le__` decides it. -/
def PyDate.le (a b : PyDate) : Bool :=
  decide (a.year < b.year) ||
    (a.year == b.year &&
      (decide (a.month < b.month) || (a.month == b.month && decide (a.day ≤ b.day))))

/-- The calendar day after `d` (`d + timedelta(days=1)`); `none` models the
`OverflowError` past `date.max` = 9999-12-31. -/
def nextDay (d : PyDate) : Option PyDate :=
  if d.day < daysInMonth d.year d.month then some ⟨d.year, d.month, d.day + 1⟩
  else if d.month < 12 then some ⟨d.year, d.month + 1, 1⟩
  else if d.year < 9999 then some ⟨d.year + 1, 1, 1⟩
  else none

/-- The calendar day before `d`; `none` models the `OverflowError` before
`date.min` = 0001-01-01. -/
def prevDay (d : PyDate) : Option PyDate :=
  if 1 < d.day then some ⟨d.year, d.month, d.day - 1⟩
  else if 1 < d.month then some ⟨d.year, d.month - 1, daysInMonth d.year (d.month - 1)⟩
  else if 1 < d.year then some ⟨d.year - 1, 12, 31⟩
  else none

/-- Iterate a fallible one-day step. -/
def iterateDays (f : PyDate → Option PyDate) : Nat → PyDate → Option PyDate
  | 0, d => some d
  | n + 1, d => (f d).bind (iterateDays f n)

/-- `d + relativedelta(years=n)` (dateutil): shift the year, clamp the day to
the length of the (unchanged) month, rebuild the date — which re-validates and
raises (`none`) when the year leaves 1..9999. -/
def addYears (n : Int) (d : PyDate) : Option PyDate :=
  let y : Int := (d.year : Int) + n
  if 0 ≤ y then mkDate y.toNat d.month (min d.day (daysInMonth y.toNat d.month))
  else none

/-- `d + relativedelta(months=n)` (dateutil): month arithmetic carrying into the
year, day clamped to the target month's length.  For the nonnegative `n` this
program passes, dateutil's construction-time normalisation agrees with this
total-month-index computation. -/
def addMonths (n : Int) (d : PyDate) : Option PyDate :=
  let t : Int := (d.year : Int) * 12 + ((d.month : Int) - 1) + n
  let y : Int := t.fdiv 12
  let m : Int := t.fmod 12 + 1
  if 0 ≤ y then mkDate y.toNat m.toNat (min d.day (daysInMonth y.toNat m.toNat))
  else none

/-- `d + relativedelta(days=n)`: a plain calendar-day shift (via `timedelta`). -/
def addDays (n : Int) (d : PyDate) : Option PyDate :=
  if 0 ≤ n then iterateDays nextDay n.toNat d else iterateDays prevDay (-n).toNat d

/-- `DateRangeType`: identified by its `(level, single)` key; the six static
instances are the only ones ever constructed.  `label`, `dateattr` and
`relativedeltaattr` are functions of `level` (1 = year, 2 = month, 3 = day). -/
structure DateRangeType where
  level : Nat
  single : Bool
deriving DecidableEq, Repr

def YEARGROUP : DateRangeType := ⟨1, false⟩
def YEAR : DateRangeType := ⟨1, true⟩
def MONTHGROUP : DateRangeType := ⟨2, false⟩
def MONTH : DateRangeType := ⟨2, true⟩
def DAYGROUP : DateRangeType := ⟨3, false⟩
def DAY : DateRangeType := ⟨3, true⟩

/-- The contents of `DateRangeType.all`, in module-initialisation order. -/
def registry : List DateRangeType := [YEARGROUP, YEAR, MONTHGROUP, MONTH, DAYGROUP, DAY]

/-- `DateRangeType.get(level, single)`; `none` models the `KeyError` for a
combination that is not registered. -/
def DateRangeType.get (level : Nat) (single : Bool) : Option DateRangeType :=
  registry.find? (fun rt => rt.level == level && rt.single == single)

/-- `DateRangeType.drilldown()`.  For the six registered instances the inner
`get` lookups always succeed, so `none` is exactly the terminal `None` the
source returns for `DAY`. -/
def DateRangeType.drilldown (rt : DateRangeType) : Option DateRangeType :=
  if rt = DAY then none
  else if !rt.single then DateRangeType.get rt.level true
  else DateRangeType.get (rt.level + 1) true

/-- `getattr(d, rt.dateattr)` — the date field named by the level's label;
`none` models the `AttributeError` for an unregistered level. -/
def dateattrVal (rt : DateRangeType) (d : PyDate) : Option Int :=
  match rt.level with
  | 1 => some (d.year : Int)
  | 2 => some (d.month : Int)
  | 3 => some (d.day : Int)
  | _ => none

/-- `d.replace(**{rt.dateattr: v})`: replace one field and re-validate;
`none` models the `ValueError`/`TypeError` paths. -/
def pyReplace (d : PyDate) (rt : DateRangeType) (v : Int) : Option PyDate :=
  if 0 ≤ v then
    match rt.level with
    | 1 => mkDate v.toNat d.month d.day
    | 2 => mkDate d.year v.toNat d.day
    | 3 => mkDate d.year d.month v.toNat
    | _ => none
  else none

def digitChar (n : Nat) : Char := Char.ofNat (48 + n)

/-- `'%02d' % n` for the field values this program formats (all `< 100`). -/
def fmt2 (n : Nat) : String := ⟨[digitChar (n / 10 % 10), digitChar (n % 10)]⟩

/-- `'%04d' % n` for the years this program formats (all `< 10000`). -/
def fmt4 (n : Nat) : String :=
  ⟨[digitChar (n / 1000 % 10), digitChar (n / 100 % 10), digitChar (n / 10 % 10),
    digitChar (n % 10)]⟩

/-- `DateChoice`: a range type together with one (single) or two (range)
date-component strings. -/
structure DateChoice where
  range_type : DateRangeType
  values : List String
deriving DecidableEq, Repr

/-- `sep.join(list)`. -/
def joinSep (sep : String) : List String → String
  | [] => ""
  | [s] => s
  | s :: rest => s ++ sep ++ joinSep sep rest

/-- `DateChoice.__unicode__`: `'..'.join(self.values)` — the parameter encoding. -/
def DateChoice.toParam (c : DateChoice) : String := joinSep ".." c.values

/-- `DateChoice.datetime_to_value(range_type, dt)`: truncate a date to the
range type's granularity (the `else` branch covers `DAY` and every non-single
type, exactly as in the source). -/
def datetime_to_value (rt : DateRangeType) (d : PyDate) : String :=
  if rt = YEAR then fmt4 d.year
  else if rt = MONTH then fmt4 d.year ++ "-" ++ fmt2 d.month
  else fmt4 d.year ++ "-" ++ fmt2 d.month ++ "-" ++ fmt2 d.day

/-- `DateChoice.from_datetime`. -/
def DateChoice.from_datetime (rt : DateRangeType) (d : PyDate) : DateChoice :=
  ⟨rt, [datetime_to_value rt d]⟩

/-- `DateChoice.from_datetime_range`: the multi type at `rt.level` with both
endpoints truncated to `rt`'s granularity; `none` models the `KeyError` when no
multi type is registered at that level. -/
def DateChoice.from_datetime_range (rt : DateRangeType) (d1 d2 : PyDate) : Option DateChoice :=
  (DateRangeType.get rt.level false).map fun g =>
    ⟨g, [datetime_to_value rt d1, datetime_to_value rt d2]⟩

/-- One item of a compiled pattern: a `\d` class or a literal `-`. -/
inductive FmtItem
  | digit
  | dash
deriving DecidableEq, Repr

def itemMatch : FmtItem → Char → Bool
  | .digit, c => isDigitChar c
  | .dash, c => c == '-'

/-- Match a fixed-length pattern against an entire string. -/
def matchFixed : List FmtItem → List Char → Bool
  | [], [] => true
  | f :: fs, c :: cs => itemMatch f c && matchFixed fs cs
  | _, _ => false

/-- The regex body for each level: `\d{4}`, `\d{4}-\d{2}`, `\d{4}-\d{2}-\d{2}`. -/
def fmtOfLevel : Nat → List FmtItem
  | 1 => [.digit, .digit, .digit, .digit]
  | 2 => [.digit, .digit, .digit, .digit, .dash, .digit, .digit]
  | 3 => [.digit, .digit, .digit, .digit, .dash, .digit, .digit, .dash, .digit, .digit]
  | _ => []

/-- `rt.regex.match(param)` with its groups: the single pattern `^(F)$`, or the
range pattern `^(F)..(F)$` — where the two dots are *unescaped* in the source
regex and therefore match any two characters, as modelled here. -/
def rtGroups (rt : DateRangeType) (l : List Char) : Option (List (List Char)) :=
  let fmt := fmtOfLevel rt.level
  if rt.single then
    if matchFixed fmt l then some [l] else none
  else
    let n := fmt.length
    if l.length == 2 * n + 2 && matchFixed fmt (l.take n) && matchFixed fmt (l.drop (n + 2)) then
      some [l.take n, l.drop (n + 2)]
    else none

/-- Try each registered type's regex in turn. -/
def from_param_go : List DateRangeType → List Char → Option DateChoice
  | [], _ => none
  | rt :: rts, l =>
    match rtGroups rt l with
    | some gs => some ⟨rt, gs.map String.mk⟩
    | none => from_param_go rts l

/-- `DateChoice.from_param`: first matching pattern wins; `none` models the
`ValueError` when no pattern matches.  (The six patterns are mutually
exclusive, so the dict iteration order is immaterial; insertion order is used.) -/
def DateChoice.from_param (p : String) : Option DateChoice :=
  from_param_go registry p.data

/-- `s.split('-')`. -/
def splitDash : List Char → List (List Char)
  | [] => [[]]
  | c :: cs =>
    match splitDash cs with
    | [] => [[]]
    | g :: gs => if c = '-' then [] :: g :: gs else (c :: g) :: gs

def strToNatGo : List Char → Nat → Option Nat
  | [], acc => some acc
  | c :: cs, acc =>
    if isDigitChar c then strToNatGo cs (acc * 10 + (c.toNat - 48)) else none

/-- Python `int(s)` on the strings that occur here (runs of decimal digits);
`none` models the `ValueError` on an empty or non-digit string. -/
def strToNat : List Char → Option Nat
  | [] => none
  | c :: cs => strToNatGo (c :: cs) 0

/-- `django.utils.dates.MONTHS[m]` (default English month names);
`none` models the `KeyError`. -/
def monthName (m : Nat) : Option String :=
  match m with
  | 1 => some "January"
  | 2 => some "February"
  | 3 => some "March"
  | 4 => some "April"
  | 5 => some "May"
  | 6 => some "June"
  | 7 => some "July"
  | 8 => some "August"
  | 9 => some "September"
  | 10 => some "October"
  | 11 => some "November"
  | 12 => some "December"
  | _ => none

/-- The single-type arm of `DateChoice.display()`: year → `parts[0]`, month →
month name of `int(parts[1])`, day → `str(int(parts[-1]))`; the fall-through
for other types returns Python `None`, and raised `IndexError`/`KeyError`/
`ValueError` on malformed values are folded into `none` as well. -/
def displaySingle (rt : DateRangeType) (v : String) : Option String :=
  let parts := splitDash v.data
  if rt = YEAR then (parts.head?).map String.mk
  else if rt = MONTH then
    match parts[1]? with
    | some p => (strToNat p).bind monthName
    | none => none
  else if rt = DAY then
    match parts.getLast? with
    | some p => (strToNat p).map Nat.repr
    | none => none
  else none

/-- `DateChoice.display()`: single values via `displaySingle`; a range joins the
single-type display of each endpoint with `-`. -/
def DateChoice.display (c : DateChoice) : Option String :=
  if c.range_type.single then
    match c.values with
    | v :: _ => displaySingle c.range_type v
    | [] => none
  else
    (c.values.mapM fun v =>
        (DateRangeType.get c.range_type.level true).bind fun rt => displaySingle rt v).map
      (joinSep "-")

/-- Parse one value string as `make_lookup` does: split on `-`, `int()` each
part, pad missing month/day with 1, build a `date` (extra parts beyond three
are ignored, as in `date(parts[0], parts[1], parts[2])`). -/
def parseValueDate (v : String) : Option PyDate := do
  let parts ← (splitDash v.data).mapM strToNat
  let padded := parts ++ List.replicate (3 - parts.length) 1
  match padded with
  | y :: m :: d :: _ => mkDate y m d
  | _ => none

/-- `d + relativedelta(**{rt.relativedeltaattr: n})`: the unit is the range
type's label + `'s'`; `none` models the `TypeError` for unregistered levels. -/
def addUnits (rt : DateRangeType) (n : Int) (d : PyDate) : Option PyDate :=
  match rt.level with
  | 1 => addYears n d
  | 2 => addMonths n d
  | 3 => addDays n d
  | _ => none

/-- `DateChoice.make_lookup(field_name)`: the
`{field__gte: start_date, field__lt: end_date}` dict, i.e. the predicate
`field ≥ start AND field < end`; `none` models any raised error. -/
def DateChoice.make_lookup (c : DateChoice) (field_name : String) :
    Option (List (String × PyDate)) := do
  let se ← (match c.range_type.single, c.values with
    | true, v :: _ => some (v, v)
    | false, [a, b] => some (a, b)
    | _, _ => none)
  let start_date ← parseValueDate se.1
  let end_date0 ← parseValueDate se.2
  let end_date ← addUnits c.range_type 1 end_date0
  pure [(field_name ++ "__gte", start_date), (field_name ++ "__lt", end_date)]

/-- Python 2 byte-wise string comparison (all strings involved are ASCII). -/
def lexCmpChars : List Char → List Char → Ordering
  | [], [] => .eq
  | [], _ :: _ => .lt
  | _ :: _, [] => .gt
  | a :: as, b :: bs =>
    if a.toNat < b.toNat then .lt
    else if b.toNat < a.toNat then .gt
    else lexCmpChars as bs

def strCmp (a b : String) : Ordering := lexCmpChars a.data b.data

/-- Python list comparison, element-wise with shorter-prefix-first. -/
def listStrCmp : List String → List String → Ordering
  | [], [] => .eq
  | [], _ :: _ => .lt
  | _ :: _, [] => .gt
  | a :: as, b :: bs =>
    match strCmp a b with
    | .eq => listStrCmp as bs
    | o => o

/-- `DateRangeType.__cmp__`: compare `(level, single)`, with `False < True`. -/
def rtCmp (a b : DateRangeType) : Ordering :=
  (compare a.level b.level).then
    (compare (if a.single then 1 else 0) (if b.single then (1 : Nat) else 0))

/-- `DateChoice.__cmp__`: compare `(range_type, values)`. -/
def choiceCmp (a b : DateChoice) : Ordering :=
  (rtCmp a.range_type b.range_type).then (listStrCmp a.values b.values)

/-- `a <= b` under `DateChoice.__cmp__` ("greater" = "more specific"). -/
def choiceLe (a b : DateChoice) : Bool :=
  match choiceCmp a b with
  | .gt => false
  | _ => true

/-- Link kinds `FILTER_ADD` / `FILTER_REMOVE` / `FILTER_DISPLAY`. -/
inductive LinkType
  | add
  | remove
  | display
deriving DecidableEq, Repr

/-- `FilterChoice`.  `params` is the tracked query parameter's state after
`build_params`: outer `none` for links built with `params=None`; `some none`
when `build_params` deleted the parameter; `some (some l)` for a value list. -/
structure FilterChoice where
  label : Option String
  count : Option Nat
  params : Option (Option (List String))
  link_type : LinkType
deriving DecidableEq, Repr

/-- `list.remove(x)`: drop the first occurrence equal to `x`; `none` models the
`ValueError` when `x` is absent. -/
def removeFirst : List DateChoice → DateChoice → Option (List DateChoice)
  | [], _ => none
  | x :: xs, a => if x = a then some xs else (removeFirst xs a).map (x :: ·)

/-- `Filter.build_params(remove=to_remove)` restricted to the tracked query
parameter: the resulting `params.getlist(query_param)`, with inner `none` for
the `del params[...]` branch. -/
def build_params_remove (chosen to_remove : List DateChoice) : Option (Option (List String)) :=
  (to_remove.foldlM removeFirst chosen).map fun rem =>
    if rem.isEmpty then none else some (rem.map DateChoice.toParam)

/-- `Filter.build_params(add=c)` restricted to the tracked query parameter. -/
def build_params_add (chosen : List DateChoice) (c : DateChoice) : Option (List String) :=
  let rem := if c ∈ chosen then chosen else chosen ++ [c]
  if rem.isEmpty then none else some (rem.map DateChoice.toParam)

/-- `RangeFilterMixin.get_choices_remove`: one REMOVE link per chosen entry,
whose parameters drop every chosen entry that is at least as specific. -/
def get_choices_remove (chosen : List DateChoice) : Option (List FilterChoice) :=
  chosen.mapM fun choice =>
    (build_params_remove chosen (chosen.filter fun c => choiceLe choice c)).map fun ps =>
      ({ label := choice.display, count := none, params := some ps,
         link_type := .remove } : FilterChoice)

/-- Stable insertion of one element into a sorted list (`choiceLe`-first). -/
def insertSorted (c : DateChoice) : List DateChoice → List DateChoice
  | [] => [c]
  | x :: xs => if choiceLe c x then c :: x :: xs else x :: insertSorted c xs

/-- A deterministic stable sort under `DateChoice.__cmp__`, modelling
`list.sort()`. -/
def sortChoices : List DateChoice → List DateChoice
  | [] => []
  | c :: cs => insertSorted c (sortChoices cs)

/-- `RangeFilterMixin.choices_from_params`: parse each raw parameter value,
silently dropping those that raise `ValueError`, then sort. -/
def choices_from_params (raw : List String) : List DateChoice :=
  sortChoices (raw.filterMap DateChoice.from_param)

/-- `int(math.ceil(float(a) / b))`: exact on the magnitudes that occur here
(dates are bounded by year 9999, far inside double precision); `none` models
the `ZeroDivisionError`. -/
def pyCeilDiv (a b : Int) : Option Int :=
  if b = 0 then none else some (-((-a).fdiv b))

/-- `int(math.floor(float(a) / b))`, same caveats as `pyCeilDiv`. -/
def pyFloorDiv (a b : Int) : Option Int :=
  if b = 0 then none else some (a.fdiv b)

/-- Python list indexing: negative indices wrap once; `none` is `IndexError`. -/
def pyIdx (n : Nat) (i : Int) : Option Nat :=
  if 0 ≤ i && i < (n : Int) then some i.toNat
  else if -(n : Int) ≤ i && i < 0 then some (i + n).toNat
  else none

/-- `l[i] = f(l[i])` with Python index semantics. -/
def pyListSet (l : List (List α)) (i : Int) (f : List α → List α) :
    Option (List (List α)) :=
  match pyIdx l.length i with
  | none => none
  | some n => (l[n]?).map fun b => l.set n (f b)

/-- `DateTimeFilter.collapse_results(results, range_type)`, with
`max_links = self.max_links`; `none` models any exception escaping the method
(`ZeroDivisionError`, `IndexError`, `ValueError` out of `date.replace` or
`relativedelta`). -/
def collapse_results (max_links : Nat) (range_type : DateRangeType)
    (results : List (PyDate × Nat)) : Option (List (DateChoice × Nat)) :=
  if max_links < results.length then
    match results with
    | [] => none
    | r0 :: rest =>
      let first : Int :=
        if range_type = MONTH then 1
        else if range_type = DAY then 1
        else (r0.1.year : Int)
      let last : Int :=
        if range_type = MONTH then 12
        else if range_type = DAY then 31
        else (((r0 :: rest).getLast (List.cons_ne_nil r0 rest)).1.year : Int)
      let span : Int := last - first + 1
      do
      let bucketsize ← pyCeilDiv span (max_links : Int)
      let numbuckets ← pyCeilDiv span bucketsize
      let buckets ← (r0 :: rest).foldlM
        (fun bs row => do
          let v ← dateattrVal range_type row.1
          let bucketnum ← pyFloorDiv (v - first) bucketsize
          pyListSet bs bucketnum (fun b => b ++ [row]))
        (List.replicate numbuckets.toNat ([] : List (PyDate × Nat)))
      let dt_template := r0.1
      (buckets.enum).mapM fun ib => do
        let count := (ib.2.map (·.2)).sum
        let start_val := first + bucketsize * (ib.1 : Int)
        let start_date ← pyReplace dt_template range_type start_val
        let end_date ← addUnits range_type (bucketsize - 1) start_date
        let choice ← DateChoice.from_datetime_range range_type start_date end_date
        pure (choice, count)
  else
    some (results.map fun rc => (DateChoice.from_datetime range_type rc.1, rc.2))

/-- `DateTimeFilter.bridge_choices(chosen, choices)`: DISPLAY links for each
level strictly between the chosen level and the first result's level, skipping
levels beyond `max_depth_level`; `none` models the (unreachable for registered
levels) `KeyError`. -/
def bridge_choices (max_depth_level : Nat) (chosen : List DateChoice)
    (choices : List (DateChoice × Nat)) : Option (List FilterChoice) :=
  match choices with
  | [] => some []
  | nc :: _ =>
    let chosen_level : Nat :=
      match chosen.getLast? with
      | none => 0
      | some c => c.range_type.level
    let new_level := nc.1.range_type.level
    ((List.range' (chosen_level + 1) (new_level - 1 - chosen_level)).filter
        fun lv => lv ≤ max_depth_level).mapM fun lv =>
      (DateRangeType.get lv true).map fun rt =>
        ({ label := DateChoice.display ⟨rt, nc.1.values⟩, count := none, params := none,
           link_type := .display } : FilterChoice)

/-- The data-driven starting granularity when nothing is chosen (lines 586-592):
same year and month → day, same year → month, otherwise year. -/
def inferredRangeType (first last : PyDate) : DateRangeType :=
  if first.year = last.year then
    if first.month = last.month then DAY else MONTH
  else YEAR

/-- The tail of `DateTimeFilter.get_choices_add` once a granularity is fixed:
collapse, bridge links, then an ADD link per bucketed choice not already chosen
and not beyond `max_depth_level`. -/
def get_choices_add_core (max_links max_depth_level : Nat) (chosen : List DateChoice)
    (range_type : DateRangeType) (results : List (PyDate × Nat)) :
    Option (List FilterChoice) := do
  let dcc ← collapse_results max_links range_type results
  let bridges ← if 0 < dcc.length then bridge_choices max_depth_level chosen dcc else pure []
  let adds := dcc.filterMap fun p =>
    if p.1 ∈ chosen then none
    else if max_depth_level < range_type.level then none
    else some ({ label := p.1.display, count := some p.2,
                 params := some (build_params_add chosen p.1), link_type := .add } :
               FilterChoice)
  pure (bridges ++ adds)

/-- `DateTimeFilter.get_choices_add(qs)`, with the store's two responses passed
in: `minmax` is the Min/Max aggregate over the result set (`none` when it has
no rows), `results` the ascending per-unit date aggregation at the granularity
the method settles on. -/
def get_choices_add (max_links max_depth_level : Nat) (chosen : List DateChoice)
    (minmax : Option (PyDate × PyDate)) (results : List (PyDate × Nat)) :
    Option (List FilterChoice) :=
  match chosen.getLast? with
  | some c =>
    match c.range_type.drilldown with
    | none => some []
    | some rt => get_choices_add_core max_links max_depth_level chosen rt results
  | none =>
    match minmax with
    | none => some []
    | some fl =>
      get_choices_add_core max_links max_depth_level chosen
        (inferredRangeType fl.1 fl.2) results

/-! ## Theorems -/

/-- Claim C3: if the input has at most `max_links` rows, `collapse_results`
does not collapse: it returns one `(DateChoice.from_datetime range_type date,
count)` pair per input row, in order, with counts unchanged. -/
theorem collapse_results_identity (max_links : Nat) (range_type : DateRangeType)
    (results : List (PyDate × Nat)) (h : results.length ≤ max_links) :
    collapse_results max_links range_type results =
      some (results.map fun rc => (DateChoice.from_datetime range_type rc.1, rc.2)) := by
  unfold collapse_results
  rw [if_neg (by omega)]

/-- Witness for C3 at the spec's own scenario: three month-truncated rows,
`max_links = 10`, year granularity. -/
theorem collapse_results_identity_witness :
    ([((⟨2020, 3, 1⟩ : PyDate), 5), (⟨2021, 7, 1⟩, 3), (⟨2022, 1, 1⟩, 2)] :
        List (PyDate × Nat)).length ≤ 10 ∧
    collapse_results 10 YEAR [(⟨2020, 3, 1⟩, 5), (⟨2021, 7, 1⟩, 3), (⟨2022, 1, 1⟩, 2)] =
      some [(⟨YEAR, ["2020"]⟩, 5), (⟨YEAR, ["2021"]⟩, 3), (⟨YEAR, ["2022"]⟩, 2)] :=
  ⟨by decide,
   (collapse_results_identity 10 YEAR
      [(⟨2020, 3, 1⟩, 5), (⟨2021, 7, 1⟩, 3), (⟨2022, 1, 1⟩, 2)] (by decide)).trans
     (by decide)⟩

/-- Claim C4: drilldown on the six registered types: `DAY` is terminal, each
multi type goes to the single type at the same level, the other single types go
to the single type one level deeper, and the result is never a multi type. -/
theorem drilldown_cases :
    YEARGROUP.drilldown = some YEAR ∧ MONTHGROUP.drilldown = some MONTH ∧
    DAYGROUP.drilldown = some DAY ∧ YEAR.drilldown = some MONTH ∧
    MONTH.drilldown = some DAY ∧ DAY.drilldown = none ∧
    (registry.all fun rt =>
      match rt.drilldown with
      | some rt2 => rt2.single
      | none => rt == DAY) = true := by
  decide

/-- Claim C7: a parameter value the date patterns reject is silently dropped:
the parsed-and-sorted chosen sequence — which everything downstream (filtering
and choice lists) is a function of — is the same as if the value had not been
supplied at all. -/
theorem choices_from_params_drop (p : String) (hp : DateChoice.from_param p = none)
    (l1 l2 : List String) :
    choices_from_params (l1 ++ p :: l2) = choices_from_params (l1 ++ l2) := by
  unfold choices_from_params
  rw [List.filterMap_append, List.filterMap_cons_none hp, ← List.filterMap_append]

/-- Witness for C7 at the spec's scenario string `"1818xx"`. -/
theorem choices_from_params_drop_witness :
    DateChoice.from_param "1818xx" = none ∧
    choices_from_params ["1813", "1818xx", "1813-06"] =
      choices_from_params ["1813", "1813-06"] :=
  ⟨by decide, choices_from_params_drop "1818xx" (by decide) ["1813"] ["1813-06"]⟩

/-- Thirteen distinct February days, one record each: a store aggregation that
makes the day-granularity collapse construct `date(2021, 2, 31)`. -/
def febResults : List (PyDate × Nat) :=
  (List.range' 1 13).map fun d => (⟨2021, 2, d⟩, 1)

/-- Claim C10 (refuting the safety property): with 13 distinct days of February
2021 and `max_links = 12` the collapse triggers (13 > 12), bucket 10 gets
`start_val = 1 + 3 * 10 = 31`, and `dt_template.replace(day=31)` is an invalid
date for February — the method raises (`none`) instead of returning buckets. -/
theorem collapse_results_feb_crash :
    12 < febResults.length ∧
    (∀ r ∈ febResults, r.1.isValid = true) ∧
    collapse_results 12 DAY febResults = none := by
  decide

/-! ## Format decomposition lemmas -/

theorem digit_ne_dash {c : Char} (h : isDigitChar c = true) : ¬(c = '-') := by
  rintro rfl
  simp [isDigitChar] at h

theorem match_level1 {l : List Char} (h : matchFixed (fmtOfLevel 1) l = true) :
    ∃ a b c d, l = [a, b, c, d] ∧
      isDigitChar a = true ∧ isDigitChar b = true ∧ isDigitChar c = true ∧
      isDigitChar d = true := by
  rcases l with _ | ⟨a, _ | ⟨b, _ | ⟨c, _ | ⟨d, _ | ⟨x, tl⟩⟩⟩⟩⟩ <;>
    simp [fmtOfLevel, matchFixed, itemMatch] at h
  exact ⟨a, b, c, d, rfl, h.1, h.2.1, h.2.2.1, h.2.2.2⟩

theorem match_level2 {l : List Char} (h : matchFixed (fmtOfLevel 2) l = true) :
    ∃ a b c d e f, l = [a, b, c, d, '-', e, f] ∧
      isDigitChar a = true ∧ isDigitChar b = true ∧ isDigitChar c = true ∧
      isDigitChar d = true ∧ isDigitChar e = true ∧ isDigitChar f = true := by
  rcases l with
    _ | ⟨a, _ | ⟨b, _ | ⟨c, _ | ⟨d, _ | ⟨d4, _ | ⟨e, _ | ⟨f, _ | ⟨x, tl⟩⟩⟩⟩⟩⟩⟩⟩ <;>
    simp [fmtOfLevel, matchFixed, itemMatch] at h
  obtain ⟨h1, h2, h3, h4, h5, h6, h7⟩ := h
  subst h5
  exact ⟨a, b, c, d, e, f, rfl, h1, h2, h3, h4, h6, h7⟩

theorem match_level3 {l : List Char} (h : matchFixed (fmtOfLevel 3) l = true) :
    ∃ a b c d e f g i, l = [a, b, c, d, '-', e, f, '-', g, i] ∧
      isDigitChar a = true ∧ isDigitChar b = true ∧ isDigitChar c = true ∧
      isDigitChar d = true ∧ isDigitChar e = true ∧ isDigitChar f = true ∧
      isDigitChar g = true ∧ isDigitChar i = true := by
  rcases l with
    _ | ⟨a, _ | ⟨b, _ | ⟨c, _ | ⟨d, _ | ⟨d4, _ | ⟨e, _ | ⟨f, _ |
      ⟨d7, _ | ⟨g, _ | ⟨i, _ | ⟨x, tl⟩⟩⟩⟩⟩⟩⟩⟩⟩⟩⟩ <;>
    simp [fmtOfLevel, matchFixed, itemMatch] at h
  obtain ⟨h1, h2, h3, h4, h5, h6, h7, h8, h9, h10⟩ := h
  subst h5
  subst h8
  exact ⟨a, b, c, d, e, f, g, i, rfl, h1, h2, h3, h4, h6, h7, h9, h10⟩

/-- A `DateChoice` as the program itself builds them: a registered range type,
with exactly one value of the level's `YYYY`(`-MM`(`-DD`)) shape when single and
exactly two such values when multi. -/
def DateChoice.wellFormed (c : DateChoice) : Bool :=
  decide (c.range_type ∈ registry) &&
    (match c.range_type.single, c.values with
     | true, [v] => matchFixed (fmtOfLevel c.range_type.level) v.data
     | false, [a, b] =>
       matchFixed (fmtOfLevel c.range_type.level) a.data &&
         matchFixed (fmtOfLevel c.range_type.level) b.data
     | _, _ => false)

/-- Claim C2: encoding a well-formed `DateChoice` to its parameter string
(`'..'.join(values)`) and parsing it back returns an equal `DateChoice`. -/
theorem from_param_roundtrip (c : DateChoice) (h : c.wellFormed = true) :
    DateChoice.from_param c.toParam = some c := by
  obtain ⟨rt, vs⟩ := c
  simp only [DateChoice.wellFormed, Bool.and_eq_true, decide_eq_true_eq] at h
  obtain ⟨hmem, hshape⟩ := h
  have hdots : (".." : String).data = ['.', '.'] := rfl
  fin_cases hmem
  · -- YEARGROUP
    rcases vs with _ | ⟨va, _ | ⟨vb, _ | ⟨vc, tl⟩⟩⟩ <;> simp [YEARGROUP] at hshape
    obtain ⟨ha, hb⟩ := hshape
    obtain ⟨la⟩ := va
    obtain ⟨lb⟩ := vb
    obtain ⟨a1, a2, a3, a4, rfl, ha1, ha2, ha3, ha4⟩ := match_level1 ha
    obtain ⟨b1, b2, b3, b4, rfl, hb1, hb2, hb3, hb4⟩ := match_level1 hb
    simp [DateChoice.toParam, joinSep, DateChoice.from_param, from_param_go, registry,
      rtGroups, YEARGROUP, fmtOfLevel, matchFixed, itemMatch, hdots,
      ha1, ha2, ha3, ha4, hb1, hb2, hb3, hb4]
  · -- YEAR
    rcases vs with _ | ⟨va, _ | ⟨vb, tl⟩⟩ <;> simp [YEAR] at hshape
    obtain ⟨la⟩ := va
    obtain ⟨a1, a2, a3, a4, rfl, ha1, ha2, ha3, ha4⟩ := match_level1 hshape
    simp [DateChoice.toParam, joinSep, DateChoice.from_param, from_param_go, registry,
      rtGroups, YEARGROUP, YEAR, fmtOfLevel, matchFixed, itemMatch,
      ha1, ha2, ha3, ha4]
  · -- MONTHGROUP
    rcases vs with _ | ⟨va, _ | ⟨vb, _ | ⟨vc, tl⟩⟩⟩ <;> simp [MONTHGROUP] at hshape
    obtain ⟨ha, hb⟩ := hshape
    obtain ⟨la⟩ := va
    obtain ⟨lb⟩ := vb
    obtain ⟨a1, a2, a3, a4, a5, a6, rfl, ha1, ha2, ha3, ha4, ha5, ha6⟩ := match_level2 ha
    obtain ⟨b1, b2, b3, b4, b5, b6, rfl, hb1, hb2, hb3, hb4, hb5, hb6⟩ := match_level2 hb
    simp [DateChoice.toParam, joinSep, DateChoice.from_param, from_param_go, registry,
      rtGroups, YEARGROUP, YEAR, MONTHGROUP, fmtOfLevel, matchFixed, itemMatch, hdots,
      ha1, ha2, ha3, ha4, ha5, ha6, hb1, hb2, hb3, hb4, hb5, hb6]
  · -- MONTH
    rcases vs with _ | ⟨va, _ | ⟨vb, tl⟩⟩ <;> simp [MONTH] at hshape
    obtain ⟨la⟩ := va
    obtain ⟨a1, a2, a3, a4, a5, a6, rfl, ha1, ha2, ha3, ha4, ha5, ha6⟩ :=
      match_level2 hshape
    simp [DateChoice.toParam, joinSep, DateChoice.from_param, from_param_go, registry,
      rtGroups, YEARGROUP, YEAR, MONTHGROUP, MONTH, fmtOfLevel, matchFixed, itemMatch,
      ha1, ha2, ha3, ha4, ha5, ha6]
  · -- DAYGROUP
    rcases vs with _ | ⟨va, _ | ⟨vb, _ | ⟨vc, tl⟩⟩⟩ <;> simp [DAYGROUP] at hshape
    obtain ⟨ha, hb⟩ := hshape
    obtain ⟨la⟩ := va
    obtain ⟨lb⟩ := vb
    obtain ⟨a1, a2, a3, a4, a5, a6, a7, a8, rfl, ha1, ha2, ha3, ha4, ha5, ha6, ha7, ha8⟩ :=
      match_level3 ha
    obtain ⟨b1, b2, b3, b4, b5, b6, b7, b8, rfl, hb1, hb2, hb3, hb4, hb5, hb6, hb7, hb8⟩ :=
      match_level3 hb
    simp [DateChoice.toParam, joinSep, DateChoice.from_param, from_param_go, registry,
      rtGroups, YEARGROUP, YEAR, MONTHGROUP, MONTH, DAYGROUP, fmtOfLevel, matchFixed,
      itemMatch, hdots, ha1, ha2, ha3, ha4, ha5, ha6, ha7, ha8,
      hb1, hb2, hb3, hb4, hb5, hb6, hb7, hb8]
  · -- DAY
    rcases vs with _ | ⟨va, _ | ⟨vb, tl⟩⟩ <;> simp [DAY] at hshape
    obtain ⟨la⟩ := va
    obtain ⟨a1, a2, a3, a4, a5, a6, a7, a8, rfl, ha1, ha2, ha3, ha4, ha5, ha6, ha7, ha8⟩ :=
      match_level3 hshape
    simp [DateChoice.toParam, joinSep, DateChoice.from_param, from_param_go, registry,
      rtGroups, YEARGROUP, YEAR, MONTHGROUP, MONTH, DAYGROUP, DAY, fmtOfLevel,
      matchFixed, itemMatch, ha1, ha2, ha3, ha4, ha5, ha6, ha7, ha8,
      (by decide : isDigitChar '-' = false)]

/-- Witness for C2 on a month-range choice. -/
theorem from_param_roundtrip_witness :
    (DateChoice.mk MONTHGROUP ["2020-03", "2020-05"]).wellFormed = true ∧
    DateChoice.from_param (DateChoice.mk MONTHGROUP ["2020-03", "2020-05"]).toParam =
      some (DateChoice.mk MONTHGROUP ["2020-03", "2020-05"]) :=
  ⟨by decide, from_param_roundtrip ⟨MONTHGROUP, ["2020-03", "2020-05"]⟩ (by decide)⟩

/-! ## Claim C5: make_lookup bounds -/

/-- `values[0]` — the value `make_lookup` parses as the inclusive start. -/
def DateChoice.startValue (c : DateChoice) : String := c.values.headD ""

/-- `values[-1]` — the value `make_lookup` parses as the (inclusive) end; equal
to `startValue` for a single choice. -/
def DateChoice.endValue (c : DateChoice) : String := c.values.getLastD ""

/-- Modelled from the spec (§4.2 `toLookupBounds`): advance a calendar date by
exactly one unit of the granularity level — one year, one month (carrying into
the year), or one day; undefined only past the calendar's maximum year 9999. -/
def specAdvanceOneUnit (level : Nat) (d : PyDate) : Option PyDate :=
  match level with
  | 1 => if d.year + 1 ≤ 9999 then some ⟨d.year + 1, d.month, d.day⟩ else none
  | 2 =>
    if d.month < 12 then some ⟨d.year, d.month + 1, d.day⟩
    else if d.year + 1 ≤ 9999 then some ⟨d.year + 1, 1, d.day⟩ else none
  | 3 =>
    if d.day < daysInMonth d.year d.month then some ⟨d.year, d.month, d.day + 1⟩
    else if d.month < 12 then some ⟨d.year, d.month + 1, 1⟩
    else if d.year < 9999 then some ⟨d.year + 1, 1, 1⟩
    else none
  | _ => none

theorem mkDate_some {y m d : Nat} {e : PyDate} (h : mkDate y m d = some e) :
    e = ⟨y, m, d⟩ ∧ e.isValid = true := by
  unfold mkDate at h
  split at h
  · obtain rfl := Option.some.inj h
    exact ⟨rfl, by assumption⟩
  · cases h

theorem one_le_daysInMonth (y m : Nat) : 1 ≤ daysInMonth y m := by
  unfold daysInMonth
  split
  · split <;> omega
  · split <;> omega

theorem parseValueDate_isValid {v : String} {ed : PyDate}
    (he : parseValueDate v = some ed) : ed.isValid = true := by
  unfold parseValueDate at he
  simp only [Option.bind_eq_bind, Option.bind_eq_some] at he
  obtain ⟨parts, hparts, he⟩ := he
  split at he
  · exact (mkDate_some he).2
  · cases he

theorem optionMapM_singleton (f : α → Option β) (x : α) :
    List.mapM f [x] = (f x).bind fun b => some [b] := by
  cases h : f x <;> simp [List.mapM, List.mapM.loop, h]

theorem optionMapM_pair (f : α → Option β) (x1 x2 : α) :
    List.mapM f [x1, x2] =
      (f x1).bind fun b1 => (f x2).bind fun b2 => some [b1, b2] := by
  cases h1 : f x1 <;> cases h2 : f x2 <;> simp [List.mapM, List.mapM.loop, h1, h2]

theorem parseValueDate_level1_eq {a b c d : Char} (ha : isDigitChar a = true)
    (hb : isDigitChar b = true) (hc : isDigitChar c = true)
    (hd : isDigitChar d = true) :
    parseValueDate ⟨[a, b, c, d]⟩ = (strToNat [a, b, c, d]).bind fun y => mkDate y 1 1 := by
  have hsplit : splitDash [a, b, c, d] = [[a, b, c, d]] := by
    simp [splitDash, digit_ne_dash ha, digit_ne_dash hb, digit_ne_dash hc,
      digit_ne_dash hd]
  unfold parseValueDate
  rw [show (String.mk [a, b, c, d]).data = [a, b, c, d] from rfl, hsplit,
    optionMapM_singleton]
  cases hy : strToNat [a, b, c, d] with
  | none => simp
  | some y => simp [List.replicate]

theorem parseValueDate_level1_inv {a b c d : Char} (ha : isDigitChar a = true)
    (hb : isDigitChar b = true) (hc : isDigitChar c = true) (hd : isDigitChar d = true)
    {ed : PyDate} (he : parseValueDate ⟨[a, b, c, d]⟩ = some ed) :
    ed.month = 1 ∧ ed.day = 1 := by
  rw [parseValueDate_level1_eq ha hb hc hd] at he
  cases hy : strToNat [a, b, c, d] <;> rw [hy] at he
  · cases he
  · obtain ⟨rfl, _⟩ := mkDate_some (by simpa using he)
    exact ⟨rfl, rfl⟩

theorem parseValueDate_level2_eq {a b c d e f : Char} (ha : isDigitChar a = true)
    (hb : isDigitChar b = true) (hc : isDigitChar c = true) (hd : isDigitChar d = true)
    (hee : isDigitChar e = true) (hf : isDigitChar f = true) :
    parseValueDate ⟨[a, b, c, d, '-', e, f]⟩ =
      (strToNat [a, b, c, d]).bind fun y =>
        (strToNat [e, f]).bind fun m => mkDate y m 1 := by
  have hsplit : splitDash [a, b, c, d, '-', e, f] = [[a, b, c, d], [e, f]] := by
    simp [splitDash, digit_ne_dash ha, digit_ne_dash hb, digit_ne_dash hc,
      digit_ne_dash hd, digit_ne_dash hee, digit_ne_dash hf]
  unfold parseValueDate
  rw [show (String.mk [a, b, c, d, '-', e, f]).data = [a, b, c, d, '-', e, f] from rfl,
    hsplit, optionMapM_pair]
  cases hy : strToNat [a, b, c, d] with
  | none => simp
  | some y =>
    cases hm : strToNat [e, f] with
    | none => simp
    | some m => simp [List.replicate]

theorem parseValueDate_level2_inv {a b c d e f : Char} (ha : isDigitChar a = true)
    (hb : isDigitChar b = true) (hc : isDigitChar c = true) (hd : isDigitChar d = true)
    (hee : isDigitChar e = true) (hf : isDigitChar f = true)
    {ed : PyDate} (he : parseValueDate ⟨[a, b, c, d, '-', e, f]⟩ = some ed) :
    ed.day = 1 := by
  rw [parseValueDate_level2_eq ha hb hc hd hee hf] at he
  cases hy : strToNat [a, b, c, d] <;> rw [hy] at he
  · cases he
  · cases hm : strToNat [e, f] <;> rw [hm] at he
    · cases he
    · obtain ⟨rfl, _⟩ := mkDate_some (by simpa using he)
      rfl

theorem addYears_one_eq_spec {ed ed1 : PyDate} (hv : ed.isValid = true)
    (hd : ed.day = 1) (hadv : specAdvanceOneUnit 1 ed = some ed1) :
    addYears 1 ed = some ed1 := by
  obtain ⟨y, m, d⟩ := ed
  simp only [PyDate.isValid, Bool.and_eq_true, decide_eq_true_eq] at hv
  obtain ⟨⟨⟨⟨⟨h1, h2⟩, h3⟩, h4⟩, h5⟩, h6⟩ := hv
  obtain rfl : d = 1 := hd
  simp only [specAdvanceOneUnit] at hadv
  split at hadv
  case isTrue hy =>
    obtain rfl := Option.some.inj hadv
    have hdim := one_le_daysInMonth (y + 1) m
    unfold addYears
    rw [if_pos (by omega)]
    simp only [Int.toNat_ofNat_add_one]
    rw [Nat.min_eq_left hdim]
    unfold mkDate
    rw [if_pos (by simp [PyDate.isValid]; omega)]
  case isFalse => cases hadv

theorem addMonths_one_eq_spec {ed ed1 : PyDate} (hv : ed.isValid = true)
    (hd : ed.day = 1) (hadv : specAdvanceOneUnit 2 ed = some ed1) :
    addMonths 1 ed = some ed1 := by
  obtain ⟨y, m, d⟩ := ed
  simp only [PyDate.isValid, Bool.and_eq_true, decide_eq_true_eq] at hv
  obtain ⟨⟨⟨⟨⟨h1, h2⟩, h3⟩, h4⟩, h5⟩, h6⟩ := hv
  obtain rfl : d = 1 := hd
  simp only [specAdvanceOneUnit] at hadv
  by_cases hm12 : m < 12
  · rw [if_pos (by simpa using hm12)] at hadv
    obtain rfl := Option.some.inj hadv
    have e1 : ((y : Int) * 12 + ((m : Int) - 1) + 1).fdiv 12 = (y : Int) := by
      rw [Int.fdiv_eq_ediv _ (by norm_num)]
      omega
    have e2 : ((y : Int) * 12 + ((m : Int) - 1) + 1).fmod 12 = (m : Int) := by
      rw [Int.fmod_def, Int.fdiv_eq_ediv _ (by norm_num)]
      omega
    unfold addMonths
    simp only [e1, e2]
    rw [if_pos (by omega)]
    have hyt : ((y : Int)).toNat = y := Int.toNat_ofNat y
    have hmt : ((m : Int) + 1).toNat = m + 1 := Int.toNat_ofNat_add_one
    rw [hyt, hmt]
    have hdim := one_le_daysInMonth y (m + 1)
    rw [Nat.min_eq_left hdim]
    unfold mkDate
    rw [if_pos (by simp [PyDate.isValid]; omega)]
  · rw [if_neg (by simpa using hm12)] at hadv
    have hm : m = 12 := by omega
    subst hm
    split at hadv
    next hy =>
      obtain rfl := Option.some.inj hadv
      have e1 : ((y : Int) * 12 + ((12 : Int) - 1) + 1).fdiv 12 = (y : Int) + 1 := by
        rw [Int.fdiv_eq_ediv _ (by norm_num)]
        omega
      have e2 : ((y : Int) * 12 + ((12 : Int) - 1) + 1).fmod 12 = 0 := by
        rw [Int.fmod_def, Int.fdiv_eq_ediv _ (by norm_num)]
        omega
      unfold addMonths
      simp only [Nat.cast_ofNat, e1, e2]
      rw [if_pos (by omega)]
      have hyt : ((y : Int) + 1).toNat = y + 1 := Int.toNat_ofNat_add_one
      rw [hyt]
      have hmt : ((0 : Int) + 1).toNat = 1 := rfl
      rw [hmt]
      have hdim := one_le_daysInMonth (y + 1) 1
      rw [Nat.min_eq_left hdim]
      unfold mkDate
      rw [if_pos (by simp [PyDate.isValid]; omega)]
    next => cases hadv

theorem addDays_one_eq_spec {ed ed1 : PyDate}
    (hadv : specAdvanceOneUnit 3 ed = some ed1) : addDays 1 ed = some ed1 := by
  have h1 : addDays 1 ed = nextDay ed := by
    unfold addDays
    rw [if_pos (by norm_num)]
    show iterateDays nextDay 1 ed = nextDay ed
    unfold iterateDays
    cases nextDay ed <;> rfl
  have h2 : specAdvanceOneUnit 3 ed = nextDay ed := rfl
  rw [h1, ← h2, hadv]

/-- Claim C5 counterexample: the well-formed single-year choice `"9999"` parses
cleanly, but `make_lookup` advances the end bound by one year, `date` rejects
year 10000, and the call raises (`none`) instead of producing the pair. -/
theorem make_lookup_year_9999_raises :
    (DateChoice.mk YEAR ["9999"]).wellFormed = true ∧
    parseValueDate "9999" = some ⟨9999, 1, 1⟩ ∧
    (DateChoice.mk YEAR ["9999"]).make_lookup "date" = none := by
  decide

/-- Claim C5 (amended): for a well-formed `DateChoice` whose values parse to
calendar dates (missing month/day parts defaulting to 1) and whose parsed end,
advanced by one unit of the choice's granularity, stays within the calendar,
`make_lookup` returns exactly `{field__gte: start, field__lt: advanced end}` —
the advance agreeing with the spec-modelled `specAdvanceOneUnit`. -/
theorem make_lookup_bounds (c : DateChoice) (field : String) (h : c.wellFormed = true)
    (sd ed ed1 : PyDate)
    (hs : parseValueDate c.startValue = some sd)
    (he : parseValueDate c.endValue = some ed)
    (hadv : specAdvanceOneUnit c.range_type.level ed = some ed1) :
    c.make_lookup field = some [(field ++ "__gte", sd), (field ++ "__lt", ed1)] := by
  obtain ⟨rt, vs⟩ := c
  simp only [DateChoice.wellFormed, Bool.and_eq_true, decide_eq_true_eq] at h
  obtain ⟨hmem, hshape⟩ := h
  fin_cases hmem
  · -- YEARGROUP
    rcases vs with _ | ⟨va, _ | ⟨vb, _ | ⟨vc, tl⟩⟩⟩ <;> simp [YEARGROUP] at hshape
    obtain ⟨ha, hb⟩ := hshape
    have hs2 : parseValueDate va = some sd := hs
    have he2 : parseValueDate vb = some ed := he
    have hadv2 : specAdvanceOneUnit 1 ed = some ed1 := hadv
    have hv := parseValueDate_isValid he2
    obtain ⟨lb⟩ := vb
    obtain ⟨b1, b2, b3, b4, rfl, hb1, hb2, hb3, hb4⟩ := match_level1 hb
    have hinv := parseValueDate_level1_inv hb1 hb2 hb3 hb4 he2
    have hadd : addUnits ⟨1, false⟩ 1 ed = some ed1 :=
      addYears_one_eq_spec hv hinv.2 hadv2
    simp [DateChoice.make_lookup, YEARGROUP, hs2, he2]
    rw [hadd]
    rfl
  · -- YEAR
    rcases vs with _ | ⟨va, _ | ⟨vb, tl⟩⟩ <;> simp [YEAR] at hshape
    have hs2 : parseValueDate va = some sd := hs
    have he2 : parseValueDate va = some ed := he
    have hadv2 : specAdvanceOneUnit 1 ed = some ed1 := hadv
    have hv := parseValueDate_isValid he2
    obtain ⟨la⟩ := va
    obtain ⟨a1, a2, a3, a4, rfl, ha1, ha2, ha3, ha4⟩ := match_level1 hshape
    have hinv := parseValueDate_level1_inv ha1 ha2 ha3 ha4 he2
    obtain rfl : sd = ed := Option.some.inj (hs2.symm.trans he2)
    have hadd : addUnits ⟨1, true⟩ 1 sd = some ed1 :=
      addYears_one_eq_spec hv hinv.2 hadv2
    simp [DateChoice.make_lookup, YEAR, hs2]
    rw [hadd]
    rfl
  · -- MONTHGROUP
    rcases vs with _ | ⟨va, _ | ⟨vb, _ | ⟨vc, tl⟩⟩⟩ <;> simp [MONTHGROUP] at hshape
    obtain ⟨ha, hb⟩ := hshape
    have hs2 : parseValueDate va = some sd := hs
    have he2 : parseValueDate vb = some ed := he
    have hadv2 : specAdvanceOneUnit 2 ed = some ed1 := hadv
    have hv := parseValueDate_isValid he2
    obtain ⟨lb⟩ := vb
    obtain ⟨b1, b2, b3, b4, b5, b6, rfl, hb1, hb2, hb3, hb4, hb5, hb6⟩ := match_level2 hb
    have hinv := parseValueDate_level2_inv hb1 hb2 hb3 hb4 hb5 hb6 he2
    have hadd : addUnits ⟨2, false⟩ 1 ed = some ed1 :=
      addMonths_one_eq_spec hv hinv hadv2
    simp [DateChoice.make_lookup, MONTHGROUP, hs2, he2]
    rw [hadd]
    rfl
  · -- MONTH
    rcases vs with _ | ⟨va, _ | ⟨vb, tl⟩⟩ <;> simp [MONTH] at hshape
    have hs2 : parseValueDate va = some sd := hs
    have he2 : parseValueDate va = some ed := he
    have hadv2 : specAdvanceOneUnit 2 ed = some ed1 := hadv
    have hv := parseValueDate_isValid he2
    obtain ⟨la⟩ := va
    obtain ⟨a1, a2, a3, a4, a5, a6, rfl, ha1, ha2, ha3, ha4, ha5, ha6⟩ :=
      match_level2 hshape
    have hinv := parseValueDate_level2_inv ha1 ha2 ha3 ha4 ha5 ha6 he2
    obtain rfl : sd = ed := Option.some.inj (hs2.symm.trans he2)
    have hadd : addUnits ⟨2, true⟩ 1 sd = some ed1 :=
      addMonths_one_eq_spec hv hinv hadv2
    simp [DateChoice.make_lookup, MONTH, hs2]
    rw [hadd]
    rfl
  · -- DAYGROUP
    rcases vs with _ | ⟨va, _ | ⟨vb, _ | ⟨vc, tl⟩⟩⟩ <;> simp [DAYGROUP] at hshape
    have hs2 : parseValueDate va = some sd := hs
    have he2 : parseValueDate vb = some ed := he
    have hadv2 : specAdvanceOneUnit 3 ed = some ed1 := hadv
    have hadd : addUnits ⟨3, false⟩ 1 ed = some ed1 := addDays_one_eq_spec hadv2
    simp [DateChoice.make_lookup, DAYGROUP, hs2, he2]
    rw [hadd]
    rfl
  · -- DAY
    rcases vs with _ | ⟨va, _ | ⟨vb, tl⟩⟩ <;> simp [DAY] at hshape
    have hs2 : parseValueDate va = some sd := hs
    have he2 : parseValueDate va = some ed := he
    have hadv2 : specAdvanceOneUnit 3 ed = some ed1 := hadv
    obtain rfl : sd = ed := Option.some.inj (hs2.symm.trans he2)
    have hadd : addUnits ⟨3, true⟩ 1 sd = some ed1 := addDays_one_eq_spec hadv2
    simp [DateChoice.make_lookup, DAY, hs2]
    rw [hadd]
    rfl

/-- Witness for C5 (amended) at the single-month choice `"1813-06"`. -/
theorem make_lookup_bounds_witness :
    (DateChoice.mk MONTH ["1813-06"]).wellFormed = true ∧
    parseValueDate (DateChoice.mk MONTH ["1813-06"]).startValue = some ⟨1813, 6, 1⟩ ∧
    specAdvanceOneUnit 2 ⟨1813, 6, 1⟩ = some ⟨1813, 7, 1⟩ ∧
    (DateChoice.mk MONTH ["1813-06"]).make_lookup "date" =
      some [("date__gte", ⟨1813, 6, 1⟩), ("date__lt", ⟨1813, 7, 1⟩)] :=
  ⟨by decide, by decide, by decide,
   make_lookup_bounds ⟨MONTH, ["1813-06"]⟩ "date" (by decide) ⟨1813, 6, 1⟩ ⟨1813, 6, 1⟩
     ⟨1813, 7, 1⟩ (by decide) (by decide) (by decide)⟩

/-! ## Claim C6: removal cascade -/

theorem foldlM_removeFirst_skip (x : DateChoice) (l r : List DateChoice)
    (hx : ∀ a ∈ r, a ≠ x) :
    r.foldlM removeFirst (x :: l) = (r.foldlM removeFirst l).map (x :: ·) := by
  induction r generalizing l with
  | nil => rfl
  | cons a as ih =>
    have hax : ¬(x = a) := fun hh => hx a (List.mem_cons_self a as) hh.symm
    rw [List.foldlM_cons, List.foldlM_cons]
    cases hra : removeFirst l a with
    | none => simp [removeFirst, hax, hra]
    | some l2 =>
      simp only [removeFirst, if_neg hax, hra, Option.map_some', Option.bind_eq_bind,
        Option.some_bind]
      exact ih l2 fun b hb => hx b (List.mem_cons_of_mem a hb)

theorem foldlM_remove_filter (p : DateChoice → Bool) (l : List DateChoice) :
    (l.filter p).foldlM removeFirst l = some (l.filter fun x => !p x) := by
  induction l with
  | nil => rfl
  | cons x xs ih =>
    cases hpx : p x with
    | true =>
      rw [List.filter_cons_of_pos hpx, List.foldlM_cons]
      have hr : removeFirst (x :: xs) x = some xs := by simp [removeFirst]
      rw [hr]
      simp only [Option.bind_eq_bind, Option.some_bind]
      rw [List.filter_cons_of_neg (by simp [hpx])]
      exact ih
    | false =>
      rw [List.filter_cons_of_neg (by simp [hpx]),
        List.filter_cons_of_pos (by simp [hpx])]
      rw [foldlM_removeFirst_skip x xs (xs.filter p)
        (fun a ha hax => by
          have hpa := List.of_mem_filter ha
          rw [hax, hpx] at hpa
          cases hpa)]
      rw [ih]
      rfl

theorem choiceLe_of_rtCmp_lt {a b : DateChoice}
    (h : rtCmp a.range_type b.range_type = Ordering.lt) : choiceLe a b = true := by
  unfold choiceLe choiceCmp
  rw [h]
  rfl

/-- Claim C6: the REMOVE link built for a chosen entry `c` carries parameters
from which exactly the chosen entries at least as specific as `c` (those `x`
with `c <= x`) have been dropped, simultaneously; and drilling down always
yields a choice at least as specific as its parent (deeper `(level, single)`
key dominates the comparison), so removing the parent also removes it. -/
theorem remove_cascade (chosen : List DateChoice) (c : DateChoice) (hc : c ∈ chosen) :
    build_params_remove chosen (chosen.filter fun x => choiceLe c x) =
      some (if (chosen.filter fun x => !choiceLe c x).isEmpty then none
            else some ((chosen.filter fun x => !choiceLe c x).map DateChoice.toParam)) ∧
    (∀ b ∈ chosen, choiceLe c b = true →
      b ∉ chosen.filter fun x => !choiceLe c x) ∧
    (∀ (art brt : DateRangeType) (avs bvs : List String), art ∈ registry →
      art.drilldown = some brt →
      choiceLe ⟨art, avs⟩ ⟨brt, bvs⟩ = true) := by
  refine ⟨?_, ?_, ?_⟩
  · unfold build_params_remove
    rw [foldlM_remove_filter (fun x => choiceLe c x) chosen]
    rfl
  · intro b hb hcb hmem
    have hpa := List.of_mem_filter hmem
    rw [hcb] at hpa
    cases hpa
  · intro art brt avs bvs hmem hd
    fin_cases hmem
    · rw [show YEARGROUP.drilldown = some YEAR from by decide] at hd
      obtain rfl := Option.some.inj hd
      exact choiceLe_of_rtCmp_lt (show rtCmp YEARGROUP YEAR = Ordering.lt from by decide)
    · rw [show YEAR.drilldown = some MONTH from by decide] at hd
      obtain rfl := Option.some.inj hd
      exact choiceLe_of_rtCmp_lt (show rtCmp YEAR MONTH = Ordering.lt from by decide)
    · rw [show MONTHGROUP.drilldown = some MONTH from by decide] at hd
      obtain rfl := Option.some.inj hd
      exact choiceLe_of_rtCmp_lt (show rtCmp MONTHGROUP MONTH = Ordering.lt from by decide)
    · rw [show MONTH.drilldown = some DAY from by decide] at hd
      obtain rfl := Option.some.inj hd
      exact choiceLe_of_rtCmp_lt (show rtCmp MONTH DAY = Ordering.lt from by decide)
    · rw [show DAYGROUP.drilldown = some DAY from by decide] at hd
      obtain rfl := Option.some.inj hd
      exact choiceLe_of_rtCmp_lt (show rtCmp DAYGROUP DAY = Ordering.lt from by decide)
    · rw [show DAY.drilldown = none from by decide] at hd
      cases hd

/-- Witness for C6: a year selection with its drilled-down month; removing the
year drops both, leaving the parameter deleted. -/
theorem remove_cascade_witness :
    ((⟨YEAR, ["1813"]⟩ : DateChoice) ∈
      [(⟨YEAR, ["1813"]⟩ : DateChoice), ⟨MONTH, ["1813-06"]⟩]) ∧
    build_params_remove [⟨YEAR, ["1813"]⟩, ⟨MONTH, ["1813-06"]⟩]
        ([(⟨YEAR, ["1813"]⟩ : DateChoice), ⟨MONTH, ["1813-06"]⟩].filter fun x =>
          choiceLe ⟨YEAR, ["1813"]⟩ x) = some none ∧
    (∀ b ∈ [(⟨YEAR, ["1813"]⟩ : DateChoice), ⟨MONTH, ["1813-06"]⟩],
      choiceLe ⟨YEAR, ["1813"]⟩ b = true →
      b ∉ [(⟨YEAR, ["1813"]⟩ : DateChoice), ⟨MONTH, ["1813-06"]⟩].filter fun x =>
        !choiceLe ⟨YEAR, ["1813"]⟩ x) := by
  have h := remove_cascade [⟨YEAR, ["1813"]⟩, ⟨MONTH, ["1813-06"]⟩] ⟨YEAR, ["1813"]⟩
    (by decide)
  exact ⟨by decide, h.1.trans (by decide), h.2.1⟩

/-! ## Claim C1: bucketing bound and count preservation -/

/-- The count carried by one bucket. -/
def bucketSum (b : List (PyDate × Nat)) : Nat := (b.map (·.2)).sum

/-- The count carried by a whole bucket table. -/
def totalCount (bs : List (List (PyDate × Nat))) : Nat := (bs.map bucketSum).sum

theorem pyCeilDiv_bounds {a b c : Int} (hb : 0 < b) (h : pyCeilDiv a b = some c) :
    a ≤ c * b ∧ (c - 1) * b < a := by
  unfold pyCeilDiv at h
  rw [if_neg (by omega)] at h
  obtain rfl := Option.some.inj h
  rw [Int.fdiv_eq_ediv _ (le_of_lt hb)]
  have h1 := Int.ediv_mul_le (-a) (ne_of_gt hb)
  have h2 := Int.lt_ediv_add_one_mul_self (-a) hb
  constructor
  · nlinarith [h1]
  · nlinarith [h2]

theorem pyCeilDiv_ne_zero {a b c : Int} (h : pyCeilDiv a b = some c) : b ≠ 0 := by
  unfold pyCeilDiv at h
  by_cases hb : b = 0
  · rw [if_pos hb] at h; cases h
  · exact hb

theorem optionMapM_forall2 {α β : Type} {f : α → Option β} :
    ∀ {l : List α} {out : List β}, l.mapM f = some out →
      List.Forall₂ (fun a b => f a = some b) l out := by
  intro l
  induction l with
  | nil =>
    intro out h
    simp only [List.mapM_nil, Option.pure_def, Option.some.injEq] at h
    subst h
    exact List.Forall₂.nil
  | cons a as ih =>
    intro out h
    rw [List.mapM_cons] at h
    simp only [Option.bind_eq_bind, Option.bind_eq_some, Option.pure_def,
      Option.some.injEq] at h
    obtain ⟨b, hb, bs, hbs, hout⟩ := h
    subst hout
    exact List.Forall₂.cons hb (ih hbs)

theorem pyListSet_spec {l l2 : List (List (PyDate × Nat))} {i : Int}
    {f : List (PyDate × Nat) → List (PyDate × Nat)}
    (h : pyListSet l i f = some l2) :
    ∃ n b, l[n]? = some b ∧ l2 = l.set n (f b) := by
  unfold pyListSet at h
  cases hidx : pyIdx l.length i with
  | none => rw [hidx] at h; cases h
  | some n =>
    rw [hidx] at h
    simp only [Option.map_eq_some'] at h
    obtain ⟨b, hb, hset⟩ := h
    exact ⟨n, b, hb, hset.symm⟩

theorem totalCount_set {l : List (List (PyDate × Nat))} :
    ∀ {n : Nat} {b : List (PyDate × Nat)}, l[n]? = some b →
      ∀ v, totalCount (l.set n v) + bucketSum b = totalCount l + bucketSum v := by
  induction l with
  | nil => intro n b hb; simp at hb
  | cons x xs ih =>
    intro n b hb v
    cases n with
    | zero =>
      simp only [List.getElem?_cons_zero, Option.some.injEq] at hb
      subst hb
      simp only [List.set_cons_zero, totalCount, List.map_cons, List.sum_cons]
      omega
    | succ k =>
      simp only [List.getElem?_cons_succ] at hb
      have := ih hb v
      simp only [List.set_cons_succ, totalCount, List.map_cons, List.sum_cons]
      simp only [totalCount] at this
      omega

theorem fillStep_spec {rt : DateRangeType} {F B : Int}
    {bs bs2 : List (List (PyDate × Nat))} {row : PyDate × Nat}
    (h : (do
        let v ← dateattrVal rt row.1
        let bn ← pyFloorDiv (v - F) B
        pyListSet bs bn (fun b => b ++ [row])) = some bs2) :
    bs2.length = bs.length ∧ totalCount bs2 = totalCount bs + row.2 := by
  simp only [Option.bind_eq_bind, Option.bind_eq_some] at h
  obtain ⟨v, hv, bn, hbn, hset⟩ := h
  obtain ⟨n, b, hb, rfl⟩ := pyListSet_spec hset
  constructor
  · exact List.length_set bs n (b ++ [row])
  · have := totalCount_set hb (b ++ [row])
    have hbs : bucketSum (b ++ [row]) = bucketSum b + row.2 := by
      simp [bucketSum]
    omega

theorem foldlM_fill_spec {rt : DateRangeType} {F B : Int} :
    ∀ (rows : List (PyDate × Nat)) (bs bs2 : List (List (PyDate × Nat))),
      rows.foldlM (fun bs row => do
          let v ← dateattrVal rt row.1
          let bn ← pyFloorDiv (v - F) B
          pyListSet bs bn (fun b => b ++ [row])) bs = some bs2 →
      bs2.length = bs.length ∧ totalCount bs2 = totalCount bs + (rows.map (·.2)).sum := by
  intro rows
  induction rows with
  | nil =>
    intro bs bs2 h
    simp only [List.foldlM_nil, Option.pure_def, Option.some.injEq] at h
    subst h
    simp
  | cons r rs ih =>
    intro bs bs2 h
    rw [List.foldlM_cons] at h
    obtain ⟨bs1, h1, h2⟩ := Option.bind_eq_some.mp h
    have s1 := fillStep_spec h1
    have s2 := ih bs1 bs2 h2
    refine ⟨by omega, ?_⟩
    simp only [List.map_cons, List.sum_cons]
    omega

theorem emit_spec {rt : DateRangeType} {F B : Int} {tmpl : PyDate}
    {ib : Nat × List (PyDate × Nat)} {y : DateChoice × Nat}
    (h : (do
        let count := (ib.2.map (·.2)).sum
        let start_val := F + B * (ib.1 : Int)
        let start_date ← pyReplace tmpl rt start_val
        let end_date ← addUnits rt (B - 1) start_date
        let choice ← DateChoice.from_datetime_range rt start_date end_date
        pure (choice, count)) = some y) :
    y.2 = (ib.2.map (·.2)).sum ∧
    ∃ sd edd, pyReplace tmpl rt (F + B * (ib.1 : Int)) = some sd ∧
      addUnits rt (B - 1) sd = some edd ∧
      DateChoice.from_datetime_range rt sd edd = some y.1 := by
  simp only [Option.bind_eq_bind, Option.bind_eq_some, Option.pure_def,
    Option.some.injEq] at h
  obtain ⟨sd, hsd, edd, hedd, ch, hch, hy⟩ := h
  subst hy
  exact ⟨rfl, sd, edd, hsd, hedd, hch⟩

theorem forall2_emit_sum {g : Nat × List (PyDate × Nat) → Option (DateChoice × Nat)}
    (hsnd : ∀ a y, g a = some y → y.2 = bucketSum a.2) :
    ∀ {l : List (Nat × List (PyDate × Nat))} {out : List (DateChoice × Nat)},
      List.Forall₂ (fun a b => g a = some b) l out →
      (out.map (·.2)).sum = (l.map fun ib => bucketSum ib.2).sum := by
  intro l out h
  induction h with
  | nil => rfl
  | cons h1 h2 ih =>
    simp only [List.map_cons, List.sum_cons, ih, hsnd _ _ h1]

theorem totalCount_replicate (n : Nat) : totalCount (List.replicate n []) = 0 := by
  induction n with
  | zero => rfl
  | succ k ih =>
    rw [List.replicate_succ]
    simp only [totalCount, List.map_cons, List.sum_cons] at ih ⊢
    simp [bucketSum, ih]

theorem pyDateLe_year {a b : PyDate} (h : PyDate.le a b = true) : a.year ≤ b.year := by
  simp only [PyDate.le, Bool.or_eq_true, Bool.and_eq_true, decide_eq_true_eq,
    beq_iff_eq] at h
  rcases h with h | ⟨h1, _⟩
  · omega
  · omega

theorem sorted_head_getLast (r0 : PyDate × Nat) (rest : List (PyDate × Nat))
    (hs : (r0 :: rest).Pairwise (fun a b => PyDate.le a.1 b.1 = true)) :
    r0.1.year ≤ ((r0 :: rest).getLast (List.cons_ne_nil r0 rest)).1.year := by
  cases rest with
  | nil => simp [List.getLast]
  | cons r1 rest2 =>
    have hmem : (r0 :: r1 :: rest2).getLast (List.cons_ne_nil _ _) ∈ r1 :: rest2 := by
      rw [List.getLast_cons (List.cons_ne_nil r1 rest2)]
      exact List.getLast_mem _
    exact pyDateLe_year ((List.pairwise_cons.mp hs).1 _ hmem)

/-- Claim C1: whenever `collapse_results` returns, its output has at most
`max_links` entries and the output counts sum to the input counts — no records
lost or double-counted.  The only hypothesis is the input contract that
`results` is ascending by date (used for the year-axis bucket bounds). -/
theorem collapse_results_bound_sum (max_links : Nat) (range_type : DateRangeType)
    (results : List (PyDate × Nat)) (out : List (DateChoice × Nat))
    (hsorted : results.Pairwise (fun a b => PyDate.le a.1 b.1 = true))
    (hout : collapse_results max_links range_type results = some out) :
    out.length ≤ max_links ∧ (out.map (·.2)).sum = (results.map (·.2)).sum := by
  unfold collapse_results at hout
  split at hout
  next hlen =>
    split at hout
    next => cases hout
    next r0 rest =>
      simp only [Option.bind_eq_bind, Option.bind_eq_some] at hout
      obtain ⟨B, hB, NB, hNB, buckets, hfill, hmap⟩ := hout
      have hmlpos : 0 < (max_links : Int) := by
        have := pyCeilDiv_ne_zero hB
        omega
      have hspan : (1 : Int) ≤
          (if range_type = MONTH then 12
           else if range_type = DAY then 31
           else (((r0 :: rest).getLast (List.cons_ne_nil r0 rest)).1.year : Int)) -
            (if range_type = MONTH then 1
             else if range_type = DAY then 1
             else (r0.1.year : Int)) + 1 := by
        split_ifs with h1 h2
        · norm_num
        · norm_num
        · have := sorted_head_getLast r0 rest hsorted
          omega
      have hBb := pyCeilDiv_bounds hmlpos hB
      have hBpos : 0 < B := by nlinarith [hBb.1, hBb.2]
      have hNBb := pyCeilDiv_bounds hBpos hNB
      have hNBle : NB ≤ (max_links : Int) := by
        have h3 : (NB - 1) * B < (max_links : Int) * B :=
          lt_of_lt_of_le hNBb.2 (by linarith [hBb.1])
        have h4 : NB - 1 < (max_links : Int) :=
          lt_of_mul_lt_mul_right h3 (le_of_lt hBpos)
        omega
      have hfold := foldlM_fill_spec (r0 :: rest) (List.replicate NB.toNat []) buckets hfill
      have hf2 := optionMapM_forall2 hmap
      have hlen2 : buckets.enum.length = out.length := hf2.length_eq
      have hblen : buckets.length = NB.toNat := by
        have := hfold.1
        simpa using this
      constructor
      · rw [← hlen2, List.enum_length, hblen]
        exact Int.toNat_le.mpr hNBle
      · have hsum1 := forall2_emit_sum (fun a y h => (emit_spec h).1) hf2
        have henum : (buckets.enum.map fun ib => bucketSum ib.2) = buckets.map bucketSum := by
          conv_rhs => rw [← List.enum_map_snd buckets]
          rw [List.map_map]
          rfl
        rw [hsum1, henum]
        have := hfold.2
        rw [totalCount_replicate] at this
        simpa [totalCount] using this
  next hlen =>
    obtain rfl := (Option.some.inj hout).symm
    constructor
    · rw [List.length_map]
      omega
    · rw [List.map_map]
      rfl

/-- Thirteen consecutive years with one record each. -/
def yearResults13 : List (PyDate × Nat) := (List.range' 2000 13).map fun y => (⟨y, 1, 1⟩, 1)

/-- Witness for C1 on a collapsing input: 13 distinct years, `max_links = 4`
gives four even 4-year buckets whose counts sum to 13. -/
theorem collapse_results_bound_sum_witness :
    (yearResults13.Pairwise (fun a b => PyDate.le a.1 b.1 = true) ∧
     collapse_results 4 YEAR yearResults13 =
       some [(⟨YEARGROUP, ["2000", "2003"]⟩, 4), (⟨YEARGROUP, ["2004", "2007"]⟩, 4),
             (⟨YEARGROUP, ["2008", "2011"]⟩, 4), (⟨YEARGROUP, ["2012", "2015"]⟩, 1)]) ∧
    ([((⟨YEARGROUP, ["2000", "2003"]⟩ : DateChoice), 4), (⟨YEARGROUP, ["2004", "2007"]⟩, 4),
      (⟨YEARGROUP, ["2008", "2011"]⟩, 4), (⟨YEARGROUP, ["2012", "2015"]⟩, 1)].length ≤ 4 ∧
     ([((⟨YEARGROUP, ["2000", "2003"]⟩ : DateChoice), 4), (⟨YEARGROUP, ["2004", "2007"]⟩, 4),
       (⟨YEARGROUP, ["2008", "2011"]⟩, 4), (⟨YEARGROUP, ["2012", "2015"]⟩, 1)].map (·.2)).sum =
       (yearResults13.map (·.2)).sum) :=
  ⟨⟨by decide, by decide⟩,
   collapse_results_bound_sum 4 YEAR yearResults13
     [(⟨YEARGROUP, ["2000", "2003"]⟩, 4), (⟨YEARGROUP, ["2004", "2007"]⟩, 4),
      (⟨YEARGROUP, ["2008", "2011"]⟩, 4), (⟨YEARGROUP, ["2012", "2015"]⟩, 1)]
     (by decide) (by decide)⟩

/-! ## Claim C9: range ordering -/

theorem lexCmpChars_refl (l : List Char) : lexCmpChars l l = Ordering.eq := by
  induction l with
  | nil => rfl
  | cons a as ih => simp [lexCmpChars, ih]

theorem lexCmp_cons_lt {a b : Char} (h : a.toNat < b.toNat) (as bs : List Char) :
    lexCmpChars (a :: as) (b :: bs) = Ordering.lt := by
  simp [lexCmpChars, h]

theorem lexCmp_cons_self {a : Char} (as bs : List Char) :
    lexCmpChars (a :: as) (a :: bs) = lexCmpChars as bs := by
  simp [lexCmpChars]

theorem lexCmp_append_congr (p : List Char) (a b : List Char) :
    lexCmpChars (p ++ a) (p ++ b) = lexCmpChars a b := by
  induction p with
  | nil => rfl
  | cons x xs ih => simpa [lexCmp_cons_self] using ih

theorem lexCmp_lt_append {s1 s2 : List Char} (hlen : s1.length = s2.length)
    (h : lexCmpChars s1 s2 = Ordering.lt) (t1 t2 : List Char) :
    lexCmpChars (s1 ++ t1) (s2 ++ t2) = Ordering.lt := by
  induction s1 generalizing s2 with
  | nil =>
    cases s2 with
    | nil => cases h
    | cons b bs => simp at hlen
  | cons a as ih =>
    cases s2 with
    | nil => simp at hlen
    | cons b bs =>
      simp only [List.cons_append]
      simp only [lexCmpChars] at h ⊢
      split at h
      next hab => rw [if_pos hab]
      next hab =>
        split at h
        next hba => cases h
        next hba =>
          rw [if_neg hab, if_neg hba]
          exact ih (by simpa using hlen) h

theorem digitChar_toNat {n : Nat} (h : n ≤ 9) : (digitChar n).toNat = 48 + n := by
  interval_cases n <;> rfl

theorem fmt4_lex_lt {a b : Nat} (hb : b ≤ 9999) (h : a < b) :
    lexCmpChars (fmt4 a).data (fmt4 b).data = Ordering.lt := by
  have ha : a ≤ 9999 := by omega
  show lexCmpChars
    [digitChar (a / 1000 % 10), digitChar (a / 100 % 10), digitChar (a / 10 % 10),
      digitChar (a % 10)]
    [digitChar (b / 1000 % 10), digitChar (b / 100 % 10), digitChar (b / 10 % 10),
      digitChar (b % 10)] = Ordering.lt
  rcases Nat.lt_trichotomy (a / 1000 % 10) (b / 1000 % 10) with h3 | h3 | h3
  · exact lexCmp_cons_lt
      (by rw [digitChar_toNat (by omega), digitChar_toNat (by omega)]; omega) _ _
  · rw [h3, lexCmp_cons_self]
    rcases Nat.lt_trichotomy (a / 100 % 10) (b / 100 % 10) with h2 | h2 | h2
    · exact lexCmp_cons_lt
        (by rw [digitChar_toNat (by omega), digitChar_toNat (by omega)]; omega) _ _
    · rw [h2, lexCmp_cons_self]
      rcases Nat.lt_trichotomy (a / 10 % 10) (b / 10 % 10) with h1 | h1 | h1
      · exact lexCmp_cons_lt
          (by rw [digitChar_toNat (by omega), digitChar_toNat (by omega)]; omega) _ _
      · rw [h1, lexCmp_cons_self]
        rcases Nat.lt_trichotomy (a % 10) (b % 10) with h0 | h0 | h0
        · exact lexCmp_cons_lt
            (by rw [digitChar_toNat (by omega), digitChar_toNat (by omega)]; omega) _ _
        · omega
        · omega
      · omega
    · omega
  · omega

theorem fmt2_lex_lt {a b : Nat} (hb : b ≤ 99) (h : a < b) :
    lexCmpChars (fmt2 a).data (fmt2 b).data = Ordering.lt := by
  have ha : a ≤ 99 := by omega
  show lexCmpChars [digitChar (a / 10 % 10), digitChar (a % 10)]
    [digitChar (b / 10 % 10), digitChar (b % 10)] = Ordering.lt
  rcases Nat.lt_trichotomy (a / 10 % 10) (b / 10 % 10) with h1 | h1 | h1
  · exact lexCmp_cons_lt
      (by rw [digitChar_toNat (by omega), digitChar_toNat (by omega)]; omega) _ _
  · rw [h1, lexCmp_cons_self]
    rcases Nat.lt_trichotomy (a % 10) (b % 10) with h0 | h0 | h0
    · exact lexCmp_cons_lt
        (by rw [digitChar_toNat (by omega), digitChar_toNat (by omega)]; omega) _ _
    · omega
    · omega
  · omega

theorem isValid_parts {d : PyDate} (h : d.isValid = true) :
    1 ≤ d.year ∧ d.year ≤ 9999 ∧ 1 ≤ d.month ∧ d.month ≤ 12 ∧
      1 ≤ d.day ∧ d.day ≤ daysInMonth d.year d.month := by
  simp only [PyDate.isValid, Bool.and_eq_true, decide_eq_true_eq] at h
  obtain ⟨⟨⟨⟨⟨q1, q2⟩, q3⟩, q4⟩, q5⟩, q6⟩ := h
  exact ⟨q1, q2, q3, q4, q5, q6⟩

theorem daysInMonth_le_31 (y m : Nat) : daysInMonth y m ≤ 31 := by
  unfold daysInMonth
  split
  · split <;> omega
  · split <;> omega

theorem pyDateLe_refl (d : PyDate) : PyDate.le d d = true := by
  simp [PyDate.le]

theorem pyDateLe_trans {a b c : PyDate} (h1 : PyDate.le a b = true)
    (h2 : PyDate.le b c = true) : PyDate.le a c = true := by
  simp only [PyDate.le, Bool.or_eq_true, Bool.and_eq_true, decide_eq_true_eq,
    beq_iff_eq] at h1 h2 ⊢
  omega

theorem pyDateLe_parts {d e : PyDate} (h : PyDate.le d e = true) :
    d.year < e.year ∨ (d.year = e.year ∧
      (d.month < e.month ∨ (d.month = e.month ∧ d.day ≤ e.day))) := by
  simp only [PyDate.le, Bool.or_eq_true, Bool.and_eq_true, decide_eq_true_eq,
    beq_iff_eq] at h
  exact h

theorem pyReplace_valid {d : PyDate} {rt : DateRangeType} {v : Int} {e : PyDate}
    (h : pyReplace d rt v = some e) : e.isValid = true := by
  unfold pyReplace at h
  split at h
  · split at h
    · exact (mkDate_some h).2
    · exact (mkDate_some h).2
    · exact (mkDate_some h).2
    · cases h
  · cases h

theorem nextDay_le {d e : PyDate} (h : nextDay d = some e) : PyDate.le d e = true := by
  unfold nextDay at h
  split at h
  · obtain rfl := Option.some.inj h
    simp [PyDate.le]
  · split at h
    · obtain rfl := Option.some.inj h
      simp [PyDate.le]
    · split at h
      · obtain rfl := Option.some.inj h
        simp [PyDate.le]
      · cases h

theorem nextDay_valid {d e : PyDate} (hd : d.isValid = true)
    (h : nextDay d = some e) : e.isValid = true := by
  obtain ⟨p1, p2, p3, p4, p5, p6⟩ := isValid_parts hd
  unfold nextDay at h
  split at h
  next hlt =>
    obtain rfl := Option.some.inj h
    simp only [PyDate.isValid, Bool.and_eq_true, decide_eq_true_eq]
    refine ⟨⟨⟨⟨⟨p1, p2⟩, p3⟩, p4⟩, by omega⟩, by omega⟩
  next hlt =>
    split at h
    next hm =>
      obtain rfl := Option.some.inj h
      have := one_le_daysInMonth d.year (d.month + 1)
      simp only [PyDate.isValid, Bool.and_eq_true, decide_eq_true_eq]
      refine ⟨⟨⟨⟨⟨p1, p2⟩, by omega⟩, by omega⟩, by omega⟩, by omega⟩
    next hm =>
      split at h
      next hy =>
        obtain rfl := Option.some.inj h
        have := one_le_daysInMonth (d.year + 1) 1
        simp only [PyDate.isValid, Bool.and_eq_true, decide_eq_true_eq]
        refine ⟨⟨⟨⟨⟨by omega, by omega⟩, by omega⟩, by omega⟩, by omega⟩, by omega⟩
      next => cases h

theorem iterateDays_le_valid :
    ∀ (k : Nat) (d e : PyDate), d.isValid = true → iterateDays nextDay k d = some e →
      PyDate.le d e = true ∧ e.isValid = true := by
  intro k
  induction k with
  | zero =>
    intro d e hd h
    obtain rfl := Option.some.inj h
    exact ⟨pyDateLe_refl d, hd⟩
  | succ n ih =>
    intro d e hd h
    unfold iterateDays at h
    cases hnd : nextDay d with
    | none => rw [hnd] at h; cases h
    | some d1 =>
      rw [hnd] at h
      simp only [Option.some_bind] at h
      obtain ⟨h2, hv2⟩ := ih d1 e (nextDay_valid hd hnd) h
      exact ⟨pyDateLe_trans (nextDay_le hnd) h2, hv2⟩

theorem addYears_le_valid {n : Int} (hn : 0 ≤ n) {d e : PyDate}
    (hd : d.isValid = true) (h : addYears n d = some e) :
    PyDate.le d e = true ∧ e.isValid = true := by
  obtain ⟨p1, p2, p3, p4, p5, p6⟩ := isValid_parts hd
  simp only [addYears] at h
  split at h
  next hy =>
    obtain ⟨he2, hv⟩ := mkDate_some h
    subst he2
    refine ⟨?_, hv⟩
    by_cases h0 : n = 0
    · subst h0
      have hyt : ((d.year : Int) + 0).toNat = d.year := by omega
      rw [hyt, Nat.min_eq_left p6]
      simp [PyDate.le]
    · have hlt : d.year < ((d.year : Int) + n).toNat := by omega
      simp only [PyDate.le, Bool.or_eq_true, decide_eq_true_eq]
      left
      exact hlt
  next => cases h

theorem addMonths_le_valid {n : Int} (hn : 0 ≤ n) {d e : PyDate}
    (hd : d.isValid = true) (h : addMonths n d = some e) :
    PyDate.le d e = true ∧ e.isValid = true := by
  obtain ⟨p1, p2, p3, p4, p5, p6⟩ := isValid_parts hd
  simp only [addMonths] at h
  split at h
  next hy0 =>
    obtain ⟨he2, hv⟩ := mkDate_some h
    subst he2
    refine ⟨?_, hv⟩
    have hid := Int.fdiv_add_fmod ((d.year : Int) * 12 + ((d.month : Int) - 1) + n) 12
    have hm0 : 0 ≤ ((d.year : Int) * 12 + ((d.month : Int) - 1) + n).fmod 12 :=
      Int.fmod_nonneg' _ (by norm_num)
    have hm1 : ((d.year : Int) * 12 + ((d.month : Int) - 1) + n).fmod 12 < 12 :=
      Int.fmod_lt_of_pos _ (by norm_num)
    rcases Nat.lt_or_ge d.year
        (((d.year : Int) * 12 + ((d.month : Int) - 1) + n).fdiv 12).toNat with hylt | hyge
    · simp only [PyDate.le, Bool.or_eq_true, decide_eq_true_eq]
      left
      exact hylt
    · have hyeq : d.year =
          (((d.year : Int) * 12 + ((d.month : Int) - 1) + n).fdiv 12).toNat := by omega
      rcases Nat.lt_or_ge d.month
          ((((d.year : Int) * 12 + ((d.month : Int) - 1) + n).fmod 12) + 1).toNat with
        hmlt | hmge
      · simp only [PyDate.le, Bool.or_eq_true, Bool.and_eq_true, decide_eq_true_eq,
          beq_iff_eq]
        right
        exact ⟨hyeq, Or.inl hmlt⟩
      · have hmeq : d.month =
            ((((d.year : Int) * 12 + ((d.month : Int) - 1) + n).fmod 12) + 1).toNat := by
          omega
        rw [← hyeq, ← hmeq, Nat.min_eq_left p6]
        simp [PyDate.le]
  next => cases h

theorem addUnits_le_valid {rt : DateRangeType} {n : Int} (hn : 0 ≤ n) {d e : PyDate}
    (hd : d.isValid = true) (h : addUnits rt n d = some e) :
    PyDate.le d e = true ∧ e.isValid = true := by
  unfold addUnits at h
  split at h
  · exact addYears_le_valid hn hd h
  · exact addMonths_le_valid hn hd h
  · unfold addDays at h
    rw [if_pos hn] at h
    exact iterateDays_le_valid _ _ _ hd h
  · cases h

theorem fmt4_data_length (n : Nat) : (fmt4 n).data.length = 4 := rfl

theorem fmt2_data_length (n : Nat) : (fmt2 n).data.length = 2 := rfl

theorem dtv_data_month (y m : Nat) :
    (fmt4 y ++ "-" ++ fmt2 m).data = (fmt4 y).data ++ '-' :: (fmt2 m).data := by
  simp [String.data_append, show ("-" : String).data = ['-'] from rfl, List.append_assoc]

theorem dtv_data_day (x : PyDate) :
    (fmt4 x.year ++ "-" ++ fmt2 x.month ++ "-" ++ fmt2 x.day).data =
      (fmt4 x.year).data ++ '-' :: ((fmt2 x.month).data ++ '-' :: (fmt2 x.day).data) := by
  simp [String.data_append, show ("-" : String).data = ['-'] from rfl, List.append_assoc]

theorem datetime_to_value_ne_gt {rt : DateRangeType} {d e : PyDate}
    (hd : d.isValid = true) (he : e.isValid = true) (hle : PyDate.le d e = true) :
    lexCmpChars (datetime_to_value rt d).data (datetime_to_value rt e).data ≠
      Ordering.gt := by
  obtain ⟨pd1, pd2, pd3, pd4, pd5, pd6⟩ := isValid_parts hd
  obtain ⟨pe1, pe2, pe3, pe4, pe5, pe6⟩ := isValid_parts he
  have hd31 := daysInMonth_le_31 d.year d.month
  have he31 := daysInMonth_le_31 e.year e.month
  have hparts := pyDateLe_parts hle
  unfold datetime_to_value
  split_ifs with h1 h2
  · rcases hparts with hy | ⟨hy, -⟩
    · rw [fmt4_lex_lt pe2 hy]
      simp
    · rw [hy, lexCmpChars_refl]
      simp
  · rw [dtv_data_month, dtv_data_month]
    rcases hparts with hy | ⟨hy, hm⟩
    · rw [lexCmp_lt_append (by rfl) (fmt4_lex_lt pe2 hy)]
      simp
    · rw [hy, lexCmp_append_congr, lexCmp_cons_self]
      rcases hm with hm | ⟨hm, -⟩
      · rw [fmt2_lex_lt (by omega) hm]
        simp
      · rw [hm, lexCmpChars_refl]
        simp
  · rw [dtv_data_day, dtv_data_day]
    rcases hparts with hy | ⟨hy, hm⟩
    · rw [lexCmp_lt_append (by rfl) (fmt4_lex_lt pe2 hy)]
      simp
    · rw [hy, lexCmp_append_congr, lexCmp_cons_self]
      rcases hm with hm | ⟨hm, hday⟩
      · rw [lexCmp_lt_append (by rfl) (fmt2_lex_lt (by omega) hm)]
        simp
      · rw [hm, lexCmp_append_congr, lexCmp_cons_self]
        rcases Nat.eq_or_lt_of_le hday with hd2 | hd2
        · rw [hd2, lexCmpChars_refl]
          simp
        · rw [fmt2_lex_lt (by omega) hd2]
          simp

theorem forall2_mem_right {α β : Type} {r : α → β → Prop} :
    ∀ {l : List α} {out : List β}, List.Forall₂ r l out → ∀ x ∈ out, ∃ a ∈ l, r a x := by
  intro l out h
  induction h with
  | nil => intro x hx; cases hx
  | cons h1 h2 ih =>
    intro x hx
    rcases List.mem_cons.mp hx with rfl | hx2
    · exact ⟨_, List.mem_cons_self _ _, h1⟩
    · obtain ⟨a, ha, hr⟩ := ih x hx2
      exact ⟨a, List.mem_cons_of_mem _ ha, hr⟩

theorem from_param_go_values :
    ∀ (rts : List DateRangeType) (l : List Char) (c : DateChoice),
      from_param_go rts l = some c →
      c.values.length = if c.range_type.single then 1 else 2 := by
  intro rts
  induction rts with
  | nil => intro l c h; cases h
  | cons rt rest ih =>
    intro l c h
    unfold from_param_go at h
    cases hg : rtGroups rt l with
    | none => rw [hg] at h; exact ih l c h
    | some gs =>
      rw [hg] at h
      obtain rfl := Option.some.inj h
      simp only [rtGroups] at hg
      split at hg
      next hsingle =>
        split at hg
        · obtain rfl := Option.some.inj hg
          simp [hsingle]
        · cases hg
      next hsingle =>
        split at hg
        · obtain rfl := Option.some.inj hg
          simp only [Bool.not_eq_true] at hsingle
          simp [hsingle]
        · cases hg

theorem from_param_values_length {p : String} {c : DateChoice}
    (h : DateChoice.from_param p = some c) :
    c.values.length = if c.range_type.single then 1 else 2 :=
  from_param_go_values registry p.data c h

/-- Claim C9 counterexample: the parser accepts `"2021..2020"` as a year range
with `start > end` — `from_param` performs no ordering check on `A..B`. -/
theorem from_param_unordered_range :
    DateChoice.from_param "2021..2020" = some ⟨YEARGROUP, ["2021", "2020"]⟩ ∧
    strCmp "2021" "2020" = Ordering.gt := by
  decide

/-- Claim C9 (amended): a multi `DateChoice` always carries exactly two values
(the parser returns two groups for a range pattern and one otherwise, and the
bucketing engine always builds two), and the range choices the bucketing
engine constructs from ascending store results satisfy `start <= end`
byte-wise; a user-supplied `A..B` parameter, however, is not ordering-checked. -/
theorem range_choice_invariant (max_links : Nat) (rt : DateRangeType)
    (results : List (PyDate × Nat)) (out : List (DateChoice × Nat))
    (hsingle : rt.single = true)
    (hsorted : results.Pairwise (fun a b => PyDate.le a.1 b.1 = true))
    (hout : collapse_results max_links rt results = some out) :
    (∀ x ∈ out, x.1.range_type.single = false →
      ∃ a b, x.1.values = [a, b] ∧ strCmp a b ≠ Ordering.gt) ∧
    (∀ (p : String) (c : DateChoice), DateChoice.from_param p = some c →
      c.values.length = if c.range_type.single then 1 else 2) := by
  refine ⟨?_, fun p c hpc => from_param_values_length hpc⟩
  unfold collapse_results at hout
  split at hout
  next hlen =>
    split at hout
    next => cases hout
    next r0 rest =>
      simp only [Option.bind_eq_bind, Option.bind_eq_some] at hout
      obtain ⟨B, hB, NB, hNB, buckets, hfill, hmap⟩ := hout
      have hmlpos : 0 < (max_links : Int) := by
        have := pyCeilDiv_ne_zero hB
        omega
      have hspan : (1 : Int) ≤
          (if rt = MONTH then 12
           else if rt = DAY then 31
           else (((r0 :: rest).getLast (List.cons_ne_nil r0 rest)).1.year : Int)) -
            (if rt = MONTH then 1
             else if rt = DAY then 1
             else (r0.1.year : Int)) + 1 := by
        split_ifs with h1 h2
        · norm_num
        · norm_num
        · have := sorted_head_getLast r0 rest hsorted
          omega
      have hBb := pyCeilDiv_bounds hmlpos hB
      have hBpos : 0 < B := by nlinarith [hBb.1, hBb.2]
      intro x hx hmulti
      obtain ⟨ib, hib, hemit⟩ := forall2_mem_right (optionMapM_forall2 hmap) x hx
      obtain ⟨-, sd, edd, hsd, hedd, hch⟩ := emit_spec hemit
      have hsdv := pyReplace_valid hsd
      obtain ⟨hle2, heddv⟩ := addUnits_le_valid (by omega) hsdv hedd
      unfold DateChoice.from_datetime_range at hch
      cases hgr : DateRangeType.get rt.level false with
      | none => rw [hgr] at hch; cases hch
      | some g =>
        rw [hgr] at hch
        simp only [Option.map_some', Option.some.injEq] at hch
        refine ⟨datetime_to_value rt sd, datetime_to_value rt edd, ?_, ?_⟩
        · rw [← hch]
        · exact datetime_to_value_ne_gt hsdv heddv hle2
  next hlen =>
    obtain rfl := (Option.some.inj hout).symm
    intro x hx hmulti
    obtain ⟨rc, hrc, hxeq⟩ := List.mem_map.mp hx
    rw [← hxeq] at hmulti
    simp only [DateChoice.from_datetime] at hmulti
    rw [hsingle] at hmulti
    cases hmulti

/-- Witness for C9 (amended) on a collapsing run: three years, `max_links = 2`,
two ordered 2-year buckets. -/
theorem range_choice_invariant_witness :
    (YEAR.single = true ∧
     collapse_results 2 YEAR [(⟨2020, 1, 1⟩, 1), (⟨2021, 1, 1⟩, 1), (⟨2022, 1, 1⟩, 1)] =
       some [(⟨YEARGROUP, ["2020", "2021"]⟩, 2), (⟨YEARGROUP, ["2022", "2023"]⟩, 1)]) ∧
    (∀ x ∈ [((⟨YEARGROUP, ["2020", "2021"]⟩ : DateChoice), 2),
            (⟨YEARGROUP, ["2022", "2023"]⟩, 1)],
      x.1.range_type.single = false →
      ∃ a b, x.1.values = [a, b] ∧ strCmp a b ≠ Ordering.gt) :=
  ⟨⟨by decide, by decide⟩,
   (range_choice_invariant 2 YEAR
      [(⟨2020, 1, 1⟩, 1), (⟨2021, 1, 1⟩, 1), (⟨2022, 1, 1⟩, 1)]
      [(⟨YEARGROUP, ["2020", "2021"]⟩, 2), (⟨YEARGROUP, ["2022", "2023"]⟩, 1)]
      (by decide) (by decide) (by decide)).1⟩

/-! ## Claim C8: empty-selection scenario -/

theorem collapse_results_level {ml : Nat} {results : List (PyDate × Nat)}
    {dcc : List (DateChoice × Nat)}
    (h : collapse_results ml YEAR results = some dcc) :
    ∀ x ∈ dcc, x.1.range_type.level = 1 := by
  unfold collapse_results at h
  split at h
  next hlen =>
    split at h
    next => cases h
    next r0 rest =>
      simp only [Option.bind_eq_bind, Option.bind_eq_some] at h
      obtain ⟨B, hB, NB, hNB, buckets, hfill, hmap⟩ := h
      intro x hx
      obtain ⟨ib, hib, hemit⟩ := forall2_mem_right (optionMapM_forall2 hmap) x hx
      obtain ⟨-, sd, edd, hsd, hedd, hch⟩ := emit_spec hemit
      unfold DateChoice.from_datetime_range at hch
      rw [show DateRangeType.get YEAR.level false = some YEARGROUP from by decide] at hch
      simp only [Option.map_some', Option.some.injEq] at hch
      rw [← hch]
      rfl
  next hlen =>
    obtain rfl := (Option.some.inj h).symm
    intro x hx
    obtain ⟨rc, hrc, hxeq⟩ := List.mem_map.mp hx
    rw [← hxeq]
    rfl

/-- Claim C8: with nothing chosen and the min/max probe returning 1813-01-01
and 1814-06-01, the inferred starting granularity follows the stated rule —
the years differ, so it is `YEAR` — and no bridge (DISPLAY) entries are
emitted: every link in the result is an ADD link (chosen level 0, the first
bucketed result sits at level 1, so no level lies strictly between). -/
theorem empty_selection_scenario (max_links max_depth_level : Nat)
    (results : List (PyDate × Nat)) (out : List FilterChoice)
    (hout : get_choices_add max_links max_depth_level []
      (some (⟨1813, 1, 1⟩, ⟨1814, 6, 1⟩)) results = some out) :
    inferredRangeType ⟨1813, 1, 1⟩ ⟨1814, 6, 1⟩ = YEAR ∧
    ∀ fc ∈ out, fc.link_type = LinkType.add := by
  refine ⟨by decide, ?_⟩
  unfold get_choices_add at hout
  simp only [List.getLast?_nil] at hout
  rw [show inferredRangeType ⟨1813, 1, 1⟩ ⟨1814, 6, 1⟩ = YEAR from by decide] at hout
  unfold get_choices_add_core at hout
  simp only [Option.bind_eq_bind, Option.bind_eq_some] at hout
  obtain ⟨dcc, hdcc, hout2⟩ := hout
  have hlev := collapse_results_level hdcc
  have hadds : ∀ fc ∈ (dcc.filterMap fun p =>
      if p.1 ∈ ([] : List DateChoice) then none
      else if max_depth_level < YEAR.level then none
      else some ({ label := p.1.display, count := some p.2,
                   params := some (build_params_add [] p.1),
                   link_type := LinkType.add } : FilterChoice)),
      fc.link_type = LinkType.add := by
    intro fc hfc
    obtain ⟨p, hp, hpe⟩ := List.mem_filterMap.mp hfc
    split at hpe
    · cases hpe
    · split at hpe
      · cases hpe
      · obtain rfl := Option.some.inj hpe
        rfl
  rcases dcc with _ | ⟨nc, tail⟩
  · rw [if_neg (by simp)] at hout2
    simp only [Option.pure_def, Option.some_bind, List.filterMap_nil, List.nil_append,
      Option.some.injEq] at hout2
    subst hout2
    intro fc hfc
    cases hfc
  · rw [if_pos (by simp)] at hout2
    have h1 : nc.1.range_type.level = 1 := hlev nc (List.mem_cons_self _ _)
    have hbr : bridge_choices max_depth_level [] (nc :: tail) = some [] := by
      unfold bridge_choices
      simp only [List.getLast?_nil, h1]
      rfl
    rw [hbr] at hout2
    simp only [Option.some_bind, Option.pure_def, Option.some.injEq, List.nil_append]
      at hout2
    subst hout2
    exact hadds

/-- Witness for C8 at a concrete store response: year-level counts for 1813
and 1814, `max_links = 12`, no depth cap. -/
theorem empty_selection_scenario_witness :
    get_choices_add 12 4 [] (some (⟨1813, 1, 1⟩, ⟨1814, 6, 1⟩))
        [(⟨1813, 1, 1⟩, 5), (⟨1814, 1, 1⟩, 3)] =
      some [⟨some "1813", some 5, some (some ["1813"]), LinkType.add⟩,
            ⟨some "1814", some 3, some (some ["1814"]), LinkType.add⟩] ∧
    (inferredRangeType ⟨1813, 1, 1⟩ ⟨1814, 6, 1⟩ = YEAR ∧
     ∀ fc ∈ [(⟨some "1813", some 5, some (some ["1813"]), LinkType.add⟩ : FilterChoice),
             ⟨some "1814", some 3, some (some ["1814"]), LinkType.add⟩],
       fc.link_type = LinkType.add) :=
  ⟨by decide,
   empty_selection_scenario 12 4 [(⟨1813, 1, 1⟩, 5), (⟨1814, 1, 1⟩, 3)]
     [⟨some "1813", some 5, some (some ["1813"]), LinkType.add⟩,
      ⟨some "1814", some 3, some (some ["1814"]), LinkType.add⟩] (by decide)⟩
